import Mathlib

set_option maxHeartbeats 1000000

namespace AppSyncSpec

/-!
Shallow embedding of the aws-app-sync reconciliation engine.

Sources embedded here:
  * `src/src/lib/role.js` — `createServiceRole`, `createRole` (statement synthesis) and,
    after the file separator, `createSchema` (schema convergence loop).
  * `src/unnamed/part_000` — the orchestrator (`AwsAppSync.default`).
  * `src/unnamed/part_001` — `createOrUpdateApiKeys`, `removeObsoleteApiKeys`.
  * `src/unnamed/part_002` — `createOrUpdateFunctions`, `removeObsoleteFunctions`.
  * `src/utils.js` — re-exports only; the API-container resolution is treated as an
    environment constant.

The diff primitives of `lib/index.js` (`checkForDuplicates`, `checkForRequired`,
`equalsByKeys`, `defaultToAnArray`, `readIfFile`, `checksum`, `listAll`) are not under
`src/`; they are modelled from the spec where noted.  JavaScript optional / missing
object fields are modelled as `Option`; machine numbers relevant to the claims are
integers, modelled as `Int`.
-/

inductive Mode
  | create
  | update
  | ignore
  deriving DecidableEq, Repr

inductive AppError
  | configurationError
  | referenceError
  | typeError
  | providerError
  | pollTimeout
  deriving DecidableEq, Repr

/-- Modelled from the spec: `normalizeList` / `defaultToAnArray` from the missing
`lib/index.js` — "undefined→empty sequence, scalar→singleton sequence, sequence→unchanged".
In the typed embedding only the undefined case can arise. -/
def defaultToAnArray (x : Option (List α)) : List α := x.getD []

/-- Embedding of node's `path.join(a, b)` for the plain relative names used by the code. -/
def pathJoin (a b : String) : String := a ++ "/" ++ b

/-- Modelled from the spec: `readIfFile(pathOrText) → text` from the missing
`lib/index.js` — returns the file's contents when the argument names a file, and the
argument unchanged otherwise.  `fs` is the file system, `none` meaning "not a file". -/
def readIfFile (fs : String → Option String) (p : String) : String := (fs p).getD p

/-- Boolean duplicate test used by the model of `checkForDuplicates`: true iff two
elements of the list share the same key projection. -/
def hasDupBy [DecidableEq κ] (key : α → κ) : List α → Bool
  | [] => false
  | a :: rest => rest.any (fun b => key b == key a) || hasDupBy key rest

/-- Modelled from the spec: `duplicateCheck(keys, list)` from the missing `lib/index.js`
— "fails with ConfigurationError if two elements share identical projections onto keys". -/
def checkForDuplicates [DecidableEq κ] (key : α → κ) (l : List α) : Except AppError Unit :=
  if hasDupBy key l then .error .configurationError else .ok ()

/-- Worker for the ramda `difference` model: `seen` holds the values already
emitted, so an element of `l1` is emitted at most once. -/
def jsDifferenceAux [DecidableEq α] (l2 : List α) : List α → List α → List α
  | _, [] => []
  | seen, x :: xs =>
    if x ∈ l2 ∨ x ∈ seen then jsDifferenceAux l2 seen xs
    else x :: jsDifferenceAux l2 (x :: seen) xs

/-- Embedding of ramda's `difference(l1, l2)`: the elements of `l1` whose value does not
appear in `l2`, first occurrence only (ramda removes duplicates from the first list). -/
def jsDifference [DecidableEq α] (l1 l2 : List α) : List α := jsDifferenceAux l2 [] l1

/-! ## Service role synthesis (`src/src/lib/role.js`, `createServiceRole`) -/

/-- Data-source `config` sub-object: the union of the kind-specific fields read by
`createServiceRole`.  Absent fields are `none`. -/
structure DSConfig where
  lambdaFunctionArn : Option String := none
  region : Option String := none
  accountId : Option String := none
  tableName : Option String := none
  endpoint : Option String := none
  dbClusterIdentifier : Option String := none
  awsSecretStoreArn : Option String := none
  deriving DecidableEq, Repr

/-- Desired data source as consumed by `createServiceRole` and the data-source
reconciler. -/
structure DSSpec where
  name : String
  type : String
  serviceRoleArn : Option String := none
  config : DSConfig := {}
  deriving DecidableEq, Repr

/-- JavaScript template-literal coercion of a possibly-undefined string. -/
def optStr (o : Option String) : String := o.getD "undefined"

/-- One IAM policy statement as built by `createServiceRole`. -/
structure Statement where
  Action : List String
  Effect : String
  Resource : List String
  deriving DecidableEq, Repr

/-- Character class `[a-z0-9-]` of the Elasticsearch endpoint regex. -/
def isEsHostChar (c : Char) : Bool := c.isLower || c.isDigit || c == '-'

/-- Character class `\w` (= `[A-Za-z0-9_]`). -/
def isWordChar (c : Char) : Bool := c.isAlphanum || c == '_'

/-- Longest prefix of the character list satisfying `p`, plus the rest. -/
def takeWhileSplit (p : Char → Bool) : List Char → List Char × List Char
  | [] => ([], [])
  | c :: cs =>
    if p c then
      let r := takeWhileSplit p cs
      (c :: r.1, r.2)
    else ([], c :: cs)

/-- Matcher for the host part of
`/^https:\/\/([a-z0-9\-]+\.\w{2}\-[a-z]+\-\d\.es\.amazonaws\.com)$/`:
a maximal `[a-z0-9-]+` run, a dot, exactly two `\w` characters, a dash, a maximal
`[a-z]+` run, a dash, one digit, then the literal `.es.amazonaws.com`.  Because each
quantified class excludes its follower, the greedy reading coincides with the
backtracking regex. -/
def esHostMatch (host : List Char) : Bool :=
  let s1 := takeWhileSplit isEsHostChar host
  match s1.1, s1.2 with
  | [], _ => false
  | _ :: _, '.' :: w1 :: w2 :: '-' :: rest2 =>
    if isWordChar w1 && isWordChar w2 then
      let s2 := takeWhileSplit Char.isLower rest2
      match s2.1, s2.2 with
      | [], _ => false
      | _ :: _, d :: rest4 => d.isDigit && rest4 = ".es.amazonaws.com".toList
      | _, _ => false
    else false
  | _, _ => false

/-- Regex capture of the Elasticsearch endpoint host: `some host` when the endpoint
matches, `none` when `exec` returns null (in which case the source dereferences
`result[1]` on null and throws). -/
def esDomainCapture (endpoint : String) : Option String :=
  if endpoint.startsWith "https://" then
    let host := endpoint.drop 8
    if esHostMatch host.toList then some host else none
  else none

/-- Statement list produced for one data-source type by the `switch` inside
`createServiceRole`.  The `default` branch of the switch returns `undefined`, which
ramda `flatten` keeps as an element — hence `List (Option Statement)` with `none` for
that undefined element.  The `RELATIONAL_DATABASE` branch reads `config.region`, an
undefined identifier in `role.js`, whenever `dataSourceConfig.region` is falsy: that is
a ReferenceError. -/
def typeStatements (accountId region : String) :
    String → List DSConfig → Except AppError (List (Option Statement))
  | "AWS_LAMBDA", cfgs =>
    .ok [some
      { Action := ["lambda:invokeFunction"]
        Effect := "Allow"
        Resource := (cfgs.map (fun c =>
          [optStr c.lambdaFunctionArn, optStr c.lambdaFunctionArn ++ ":*"])).flatten }]
  | "AMAZON_DYNAMODB", cfgs =>
    .ok [some
      { Action := ["dynamodb:DeleteItem", "dynamodb:GetItem", "dynamodb:PutItem",
          "dynamodb:Query", "dynamodb:Scan", "dynamodb:UpdateItem",
          "dynamodb:BatchGetItem", "dynamodb:BatchWriteItem"]
        Effect := "Allow"
        Resource := (cfgs.map (fun c =>
          let base := "arn:aws:dynamodb:" ++ c.region.getD region ++ ":" ++
            c.accountId.getD accountId ++ ":table/" ++ optStr c.tableName
          [base, base ++ "/*"])).flatten }]
  | "AMAZON_ELASTICSEARCH", cfgs => do
    let resources ← cfgs.mapM (fun c =>
      match esDomainCapture (optStr c.endpoint) with
      | some host =>
        .ok ("arn:aws:es:" ++ c.region.getD region ++ ":" ++
          c.accountId.getD accountId ++ ":domain/" ++ host)
      | none => .error AppError.typeError)
    .ok [some
      { Action := ["es:ESHttpDelete", "es:ESHttpGet", "es:ESHttpHead",
          "es:ESHttpPost", "es:ESHttpPut"]
        Effect := "Allow"
        Resource := resources }]
  | "RELATIONAL_DATABASE", cfgs => do
    let clusterArns ← cfgs.mapM (fun c =>
      match c.region with
      | some r =>
        .ok ("arn:aws:rds:" ++ r ++ ":" ++ c.accountId.getD accountId ++ ":cluster:" ++
          optStr c.dbClusterIdentifier)
      | none => .error AppError.referenceError)
    let secretArns := (cfgs.map (fun c =>
      [optStr c.awsSecretStoreArn, optStr c.awsSecretStoreArn ++ ":*"])).flatten
    .ok [some
      { Action := ["rds-data:DeleteItems", "rds-data:ExecuteSql",
          "rds-data:ExecuteStatement", "rds-data:GetItems", "rds-data:InsertItems",
          "rds-data:UpdateItems"]
        Effect := "Allow"
        Resource := (clusterArns.map (fun a => [a, a ++ ":*"])).flatten },
      some
      { Action := ["secretsmanager:GetSecretValue"]
        Effect := "Allow"
        Resource := secretArns }]
  | _, _ => .ok [none]

/-- One step of the `reduce` inside `createServiceRole`: data sources carrying an
explicit `serviceRoleArn` are skipped; otherwise the data source's `config` is appended
to the bucket of its `type` unless a deeply-equal config is already present.  The
accumulator is an insertion-ordered association list, matching `toPairs` on a plain
object. -/
def accAdd (acc : List (String × List DSConfig)) (ds : DSSpec) :
    List (String × List DSConfig) :=
  if ds.serviceRoleArn.isNone then
    let acc1 := if acc.any (fun p => p.1 == ds.type) then acc else acc ++ [(ds.type, [])]
    acc1.map (fun p =>
      if p.1 == ds.type then
        (p.1, if p.2.any (fun c => c == ds.config) then p.2 else p.2 ++ [ds.config])
      else p)
  else acc

/-- Statement synthesis pipeline of `createServiceRole`:
`reduce` grouping, `toPairs`, per-type statement map, `flatten`. -/
def createServiceRoleStatements (accountId region : String) (dataSources : List DSSpec) :
    Except AppError (List (Option Statement)) := do
  let pairs := dataSources.foldl accAdd []
  let ll ← pairs.mapM (fun p => typeStatements accountId region p.1 p.2)
  .ok ll.flatten

/-- Outcome of `createServiceRole`: either `createRole` is invoked with the synthesized
statements and the api name, or the function returns `{}` without creating anything. -/
inductive RoleAction
  | createRole (statements : List (Option Statement)) (apiName : String)
  | skip
  deriving DecidableEq, Repr

/-- JavaScript truthiness of the `statements` value: it is always an array, and every
array — including the empty one — is truthy in JavaScript. -/
def jsTruthyArray (_l : List (Option Statement)) : Bool := true

/-- Embedding of `createServiceRole(iam, inputs)` from `role.js`: synthesize the
statements, then `if (statements)` call `createRole`, else return `{}`.  The else
branch (`return {}` under the `todo remove role and policy` comment) is reachable only
if `statements` were falsy. -/
def createServiceRoleModel (accountId : String) (region : String) (apiName : String)
    (dataSources : List DSSpec) : Except AppError RoleAction := do
  let statements ← createServiceRoleStatements accountId region dataSources
  if jsTruthyArray statements then
    .ok (.createRole statements apiName)
  else
    .ok .skip

/-- Concrete input for claim C1: a single data source that carries an explicit
`serviceRoleArn`, so no data source needs a synthesized role. -/
def c1DataSources : List DSSpec :=
  [{ name := "ds1", type := "AWS_LAMBDA",
     serviceRoleArn := some "arn:aws:iam::123456789012:role/explicit",
     config := { lambdaFunctionArn := some "arn:aws:lambda:us-east-1:123456789012:function:f" } }]

/-! ## Schema convergence loop (`src/src/lib/role.js`, second document: `createSchema`) -/

/-- Configuration fields read by `createSchema`. -/
structure SchemaConfig where
  schema : Option String := none
  isApiCreator : Bool := false
  src : String := "src"
  apiId : String := "api"
  deriving Repr

/-- Remote calls issued by `createSchema`: the schema submission, one status poll per
loop iteration, and the fixed one-second sleep between non-terminal polls. -/
inductive SchemaCall
  | startSchemaCreation (text : String)
  | getStatus (status : String)
  | sleepMs (ms : Nat)
  deriving DecidableEq, Repr

/-- Terminal statuses of the polling loop: `includes(status, ['FAILED', 'SUCCESS',
'NOT_APPLICABLE'])`. -/
def terminalStatus (s : String) : Bool :=
  ["FAILED", "SUCCESS", "NOT_APPLICABLE"].contains s

/-- Polling loop of `createSchema` over the stream `σ` of statuses returned by
`getSchemaCreationStatus`, beginning at poll index `i`.  The source's `do … while`
has no bound; `fuel` is modelling apparatus only, and `none` means the loop did not
exit within `fuel` iterations. -/
def pollCalls (σ : Nat → String) : Nat → Nat → Option (List SchemaCall)
  | 0, _ => none
  | fuel + 1, i =>
    if terminalStatus (σ i) then some [.getStatus (σ i)]
    else (pollCalls σ fuel (i + 1)).map
      (fun rest => .getStatus (σ i) :: .sleepMs 1000 :: rest)

/-- Schema text resolution of `createSchema`: the configured schema (defaulted to
`schema.graphql`), read relative to the source root. -/
def resolvedSchemaText (fs : String → Option String) (config : SchemaConfig) : String :=
  readIfFile fs (pathJoin config.src (config.schema.getD "schema.graphql"))

/-- Embedding of `createSchema(appSync, config, state)`.  Returns the checksum value
the function resolves to (`none` for the `Promise.resolve()` early return) together
with the remote calls issued; the outer `none` means the unbounded polling loop did not
reach a terminal status within `fuel`.  `cks` is the external `checksum` collaborator,
`stateChecksum` is `state.schemaChecksum`. -/
def createSchemaModel (fs : String → Option String) (cks : String → String)
    (config : SchemaConfig) (stateChecksum : Option String) (σ : Nat → String)
    (fuel : Nat) : Option (Option String × List SchemaCall) :=
  if config.schema.isNone && !config.isApiCreator then
    some (none, [])
  else
    let text := resolvedSchemaText fs config
    let c := cks text
    if stateChecksum = some c then
      some (some c, [])
    else
      match pollCalls σ fuel 0 with
      | none => none
      | some pcs => some (some c, .startSchemaCreation text :: pcs)

/-- Expected call pattern of a poll loop that first sees a terminal status at index
`k` when polling starts at index `i`: `k` non-terminal polls each followed by a
one-second sleep, then the terminal poll. -/
def pollPattern (σ : Nat → String) (i k : Nat) : List SchemaCall :=
  ((List.range k).map
    (fun j => [SchemaCall.getStatus (σ (i + j)), SchemaCall.sleepMs 1000])).flatten ++
  [SchemaCall.getStatus (σ (i + k))]

/-- Concrete input for claim C3: no schema declared, caller is not the API creator,
and a prior checksum is on record. -/
def c3Config : SchemaConfig :=
  { schema := none, isApiCreator := false, src := "src", apiId := "api1" }

/-! ## Function reconciler (`src/unnamed/part_002`) -/

/-- Desired function item as declared in the configuration. -/
structure FnSpec where
  name : String
  dataSource : String
  request : String
  response : String
  functionVersion : Option String := none
  description : Option String := none
  deriving DecidableEq, Repr

/-- A desired function after template resolution:
`merge(func, { requestMappingTemplate, responseMappingTemplate, dataSourceName })`. -/
structure ResolvedFn where
  name : String
  dataSource : String
  request : String
  response : String
  functionVersion : Option String := none
  description : Option String := none
  requestMappingTemplate : String
  responseMappingTemplate : String
  dataSourceName : String
  deriving DecidableEq, Repr

/-- Template resolution step of `createOrUpdateFunctions`.  Note that the source reads
`path.join(config.src, func.request)` for the `responseMappingTemplate` as well — both
templates come from the file named by the item's `request` field. -/
def resolveFn (fs : String → Option String) (src : String) (f : FnSpec) : ResolvedFn :=
  { name := f.name, dataSource := f.dataSource, request := f.request,
    response := f.response, functionVersion := f.functionVersion,
    description := f.description,
    requestMappingTemplate := readIfFile fs (pathJoin src f.request),
    responseMappingTemplate := readIfFile fs (pathJoin src f.request),
    dataSourceName := f.dataSource }

/-- A function as held remotely by the provider (`listFunctions` item). -/
structure RemoteFn where
  name : String
  dataSourceName : String
  requestMappingTemplate : String
  responseMappingTemplate : String
  functionVersion : String := "2018-05-29"
  description : Option String := none
  functionId : Nat
  deriving DecidableEq, Repr

/-- Remote lookup of `createOrUpdateFunctions`: first deployed function agreeing with
the desired item on `name` and `dataSourceName`. -/
def findDeployedFn (deployed : List RemoteFn) (f : ResolvedFn) : Option RemoteFn :=
  deployed.find? (fun d => d.name == f.name && d.dataSourceName == f.dataSourceName)

/-- Modelled from the spec: `equalsByKeys` / `keyedEquals` from the missing
`lib/index.js` — "true iff the two agree on every field in keys" — instantiated at the
field subset `['dataSourceName', 'name', 'responseMappingTemplate',
'requestMappingTemplate']` used by the function reconciler. -/
def equalsByKeysFn (d : RemoteFn) (f : ResolvedFn) : Bool :=
  d.dataSourceName == f.dataSourceName && d.name == f.name &&
  d.responseMappingTemplate == f.responseMappingTemplate &&
  d.requestMappingTemplate == f.requestMappingTemplate

/-- A desired function after classification:
`merge(func, { mode, functionId: deployedFunction ? deployedFunction.functionId : undefined })`. -/
structure PlannedFn where
  f : ResolvedFn
  mode : Mode
  functionId : Option Nat
  deriving DecidableEq, Repr

/-- Classification step of `createOrUpdateFunctions`:
`mode = not(functionEquals) ? (not(deployedFunction) ? 'create' : 'update') : 'ignore'`,
with `functionEquals` false when there is no deployed match. -/
def classifyFn (deployed : List RemoteFn) (f : ResolvedFn) : PlannedFn :=
  let deployedFunction := findDeployedFn deployed f
  let functionEquals :=
    match deployedFunction with
    | none => false
    | some d => equalsByKeysFn d f
  let mode :=
    if !functionEquals then
      (if deployedFunction.isNone then Mode.create else Mode.update)
    else Mode.ignore
  { f := f, mode := mode, functionId := deployedFunction.map (fun d => d.functionId) }

/-- Remote calls issued by the function reconciler and its removal counterpart. -/
inductive FnCall
  | listFunctions
  | createFunction (name : String)
  | updateFunction (functionId : Option Nat)
  | deleteFunction (functionId : Option Nat)
  deriving DecidableEq, Repr

/-- The remote function the provider stores for the `params` object built by
`createOrUpdateFunctions` (on create the provider assigns the fresh `id`; on update the
function keeps its id and takes the params' fields).  Note `dataSourceName:
func.dataSource` in the source. -/
def remoteOfParams (p : PlannedFn) (id : Nat) : RemoteFn :=
  { name := p.f.name,
    dataSourceName := p.f.dataSource,
    requestMappingTemplate := p.f.requestMappingTemplate,
    responseMappingTemplate := p.f.responseMappingTemplate,
    functionVersion := p.f.functionVersion.getD "2018-05-29",
    description := p.f.description,
    functionId := id }

/-- Result of executing the planned create/update calls: the remote list after the
mutations, the provider's next fresh id, the returned function objects, and the calls
issued. -/
structure FnExecResult where
  remote : List RemoteFn
  nextId : Nat
  funcs : List PlannedFn
  calls : List FnCall
  deriving DecidableEq, Repr

/-- Execution step of `createOrUpdateFunctions`: `create` stores a new remote function
under a fresh id (captured on the returned item), `update` replaces the fields of the
remote function bearing the item's `functionId`, `ignore` calls nothing. -/
def execFns (remote : List RemoteFn) (nid : Nat) : List PlannedFn → FnExecResult
  | [] => ⟨remote, nid, [], []⟩
  | p :: rest =>
    match p.mode with
    | Mode.create =>
      let r := execFns (remote ++ [remoteOfParams p nid]) (nid + 1) rest
      ⟨r.remote, r.nextId, { p with functionId := some nid } :: r.funcs,
        FnCall.createFunction p.f.name :: r.calls⟩
    | Mode.update =>
      let upd := remote.map (fun d =>
        if some d.functionId == p.functionId then remoteOfParams p d.functionId else d)
      let r := execFns upd nid rest
      ⟨r.remote, r.nextId, p :: r.funcs, FnCall.updateFunction p.functionId :: r.calls⟩
    | Mode.ignore =>
      let r := execFns remote nid rest
      ⟨r.remote, r.nextId, p :: r.funcs, r.calls⟩

/-- Natural key of a desired function: `(name, dataSource)`. -/
def fnKey (f : FnSpec) : String × String := (f.name, f.dataSource)

/-- Embedding of `createOrUpdateFunctions(appSync, config, instance)`: duplicate check
first (before any remote call), then the paginated listing, template resolution,
classification and execution.  Returns the calls issued alongside the result. -/
def createOrUpdateFunctionsModel (fs : String → Option String) (src : String)
    (functions : Option (List FnSpec)) (remote : List RemoteFn) (nid : Nat) :
    List FnCall × Except AppError FnExecResult :=
  match checkForDuplicates fnKey (defaultToAnArray functions) with
  | .error e => ([], .error e)
  | .ok _ =>
    let resolved := (defaultToAnArray functions).map (resolveFn fs src)
    let planned := resolved.map (classifyFn remote)
    let r := execFns remote nid planned
    (FnCall.listFunctions :: r.calls, .ok r)

/-- Persisted function entry: `pick(['name', 'dataSource', 'functionId'])`. -/
structure FnStateEntry where
  name : String
  dataSource : String
  functionId : Option Nat := none
  deriving DecidableEq, Repr

/-- Projection `pick(['name', 'dataSource'])` used by `removeObsoleteFunctions`. -/
structure FnKeyProj where
  name : String
  dataSource : String
  deriving DecidableEq, Repr

/-- Projection of a persisted function entry onto its natural key. -/
def fnProj (e : FnStateEntry) : FnKeyProj := { name := e.name, dataSource := e.dataSource }

/-- Outcome of one provider `delete` call, supplied by the environment. -/
inductive DeleteOutcome
  | ok
  | notFound
  | fail
  deriving DecidableEq, Repr

/-- The `functionId` recorded in the prior state for a natural key (the destructured
result of `find` in `removeObsoleteFunctions`). -/
def fnStateLookup (stateFns : List FnStateEntry) (k : FnKeyProj) : Option Nat :=
  match stateFns.find? (fun e => e.name == k.name && e.dataSource == k.dataSource) with
  | some e => e.functionId
  | none => none

/-- Per-orphan loop of `removeObsoleteFunctions`: look up the prior entry, issue the
delete; a `NotFoundException` is swallowed, any other error propagates; destructuring a
missing entry would itself throw. -/
def removeObsoleteFnGo (outcome : Option Nat → DeleteOutcome)
    (stateFns : List FnStateEntry) : List FnKeyProj → Except AppError (List (Option Nat))
  | [] => .ok []
  | k :: rest =>
    match stateFns.find? (fun e => e.name == k.name && e.dataSource == k.dataSource) with
    | none => .error .typeError
    | some e =>
      match outcome e.functionId with
      | .fail => .error .providerError
      | _ => (removeObsoleteFnGo outcome stateFns rest).map
          (fun ds => e.functionId :: ds)

/-- Embedding of `removeObsoleteFunctions(appSync, config, state, instance)`:
`difference` of the natural-key projections of the prior state and of the configured
functions, then one delete per orphan.  `configKeys` is
`map(pick(['name', 'dataSource']), defaultToAnArray(config.functions))`. -/
def removeObsoleteFunctionsModel (outcome : Option Nat → DeleteOutcome)
    (stateFns : Option (List FnStateEntry)) (configKeys : List FnKeyProj) :
    Except AppError (List (Option Nat)) :=
  removeObsoleteFnGo outcome (defaultToAnArray stateFns)
    (jsDifference ((defaultToAnArray stateFns).map fnProj) configKeys)

/-- Concrete file system for claim C4: distinct request and response template files. -/
def c4Fs : String → Option String := fun p =>
  if p = "src/req.vtl" then some "REQUEST TEMPLATE"
  else if p = "src/res.vtl" then some "RESPONSE TEMPLATE"
  else none

/-- Concrete desired function for claim C4. -/
def c4Fn : FnSpec := { name := "f", dataSource := "d", request := "req.vtl", response := "res.vtl" }

/-- Concrete duplicate-key function list for the C9 witness. -/
def c9DupFns : List FnSpec :=
  [{ name := "f", dataSource := "d", request := "r", response := "s" },
   { name := "f", dataSource := "d", request := "r2", response := "s2" }]

/-! ## API key reconciler (`src/unnamed/part_001`) -/

/-- A declared API key record; every field is optional in the configuration. -/
structure ApiKeyRec where
  name : Option String := none
  description : Option String := none
  expires : Option Int := none
  deriving DecidableEq, Repr

/-- A configured API key entry: either a bare string or a record. -/
inductive ApiKeyInput
  | str (s : String)
  | obj (k : ApiKeyRec)
  deriving DecidableEq, Repr

/-- Embedding of `formatInputApiKeys`: a bare string becomes `{ name }`, records pass
through; an undefined list becomes `[]`. -/
def formatInputApiKeys (apiKeys : Option (List ApiKeyInput)) : List ApiKeyRec :=
  (defaultToAnArray apiKeys).map (fun k =>
    match k with
    | .str s => { name := some s }
    | .obj r => r)

/-- An API key as held remotely (`listApiKeys` item).  The provider stores no name —
`createApiKey` is called without one. -/
structure RemoteKey where
  id : Nat
  description : Option String := none
  expires : Option Int := none
  deriving DecidableEq, Repr

/-- Persisted API key entry: `pick(['name', 'id'])`. -/
structure KeyState where
  name : Option String := none
  id : Option Nat := none
  deriving DecidableEq, Repr

/-- The result of `merge(stateApiKey, deployedApiKey)`: name from the prior state, the
rest from the deployed key. -/
structure MergedKey where
  name : Option String
  id : Nat
  description : Option String
  expires : Option Int
  deriving DecidableEq, Repr

/-- Worker of the `stateApiKeys` reduce: walk the prior-state keys in order, keeping —
merged with the deployed key — exactly those whose id is still deployed. -/
def mergedGo (deployed : List RemoteKey) : List KeyState → List MergedKey
  | [] => []
  | st :: rest =>
    match deployed.find? (fun d => some d.id == st.id) with
    | some d =>
      { name := st.name, id := d.id, description := d.description,
        expires := d.expires } :: mergedGo deployed rest
    | none => mergedGo deployed rest

/-- The `stateApiKeys` reduce of `createOrUpdateApiKeys`: prior-state keys whose id is
still deployed, merged with the deployed key (`merge(stateApiKey, deployedApiKey)`),
pushed in prior-state order. -/
def mergedStateKeys (deployed : List RemoteKey) (stateKeys : Option (List KeyState)) :
    List MergedKey :=
  mergedGo deployed (defaultToAnArray stateKeys)

/-- A desired API key after classification (the `apiKeysToDeploy` items). -/
structure PlannedKey where
  name : Option String
  id : Option Nat
  description : Option String
  expires : Option Int
  mode : Mode
  deriving DecidableEq, Repr

/-- Classification of one desired key.  The required-field check is modelled from the
spec: `checkForRequired(['name'], apiKey)` from the missing `lib/index.js` fails with a
`ConfigurationError` on a missing name.  Then: no prior key of that name ⇒ create; a
prior key with a differing declared `description` or `expires` ⇒ update; otherwise
ignore.  The `merge(merge(stateApiKey, { mode }), apiKey)` lets the declared fields
override the merged state key's. -/
def classifyApiKey (merged : List MergedKey) (k : ApiKeyRec) : Except AppError PlannedKey :=
  if k.name.isNone then .error .configurationError
  else
    match merged.find? (fun m => m.name == k.name) with
    | none =>
      .ok
        { name := k.name, id := none, description := k.description,
          expires := k.expires, mode := .create }
    | some st =>
      if (k.description.isSome && k.description != st.description) ||
         (k.expires.isSome && k.expires != st.expires) then
        .ok
          { name := k.name, id := some st.id,
            description := k.description.orElse (fun _ => st.description),
            expires := k.expires.orElse (fun _ => st.expires), mode := .update }
      else
        .ok
          { name := k.name, id := some st.id,
            description := k.description.orElse (fun _ => st.description),
            expires := k.expires.orElse (fun _ => st.expires), mode := .ignore }

/-- The strict left-to-right `map` building `apiKeysToDeploy`: the first missing name
throws before any mutation is executed. -/
def classifyApiKeys (merged : List MergedKey) :
    List ApiKeyRec → Except AppError (List PlannedKey)
  | [] => .ok []
  | k :: rest =>
    match classifyApiKey merged k with
    | .error e => .error e
    | .ok p =>
      match classifyApiKeys merged rest with
      | .error e => .error e
      | .ok ps => .ok (p :: ps)

/-- JavaScript `Math.round(ms / 1000)` on an integral millisecond count:
`Math.round(x)` is `floor(x + 1/2)`, so this is floor division of `ms + 500` by 1000. -/
def msToSecRound (ms : Int) : Int := (ms + 500).fdiv 1000

/-- The `dateToParse` step of `createOrUpdateApiKeys`: a numeric `expires` below 1e12
is taken as epoch seconds and scaled to milliseconds; otherwise it is already epoch
milliseconds. -/
def apiKeyDateToParse (expires : Option Int) : Option Int :=
  expires.map (fun e => if e < 1000000000000 then e * 1000 else e)

/-- The `expires` value sent to the provider:
`Math.round(new Date(dateToParse).getTime() / 1000)`, or absent when no expiry is
declared. -/
def apiKeyExpiresToSend (expires : Option Int) : Option Int :=
  (apiKeyDateToParse expires).map msToSecRound

/-- Remote calls issued by the API key reconciler and its removal counterpart. -/
inductive KeyCall
  | listApiKeys
  | createApiKey (expires : Option Int)
  | updateApiKey (id : Option Nat) (expires : Option Int)
  | deleteApiKey (id : Option Nat)
  deriving DecidableEq, Repr

/-- True for the mutating provider calls (everything except the read-only listing). -/
def isKeyMutation : KeyCall → Bool
  | KeyCall.listApiKeys => false
  | _ => true

/-- Result of executing the planned API key calls. -/
structure KeyExecResult where
  remote : List RemoteKey
  nextId : Nat
  keys : List KeyState
  calls : List KeyCall
  deriving DecidableEq, Repr

/-- Execution step of `createOrUpdateApiKeys`: `create` stores a key with the declared
description and the normalized expiry under a fresh id (captured on the returned
`pick(['name', 'id'])` item), `update` rewrites the deployed key's description and
expiry, `ignore` calls nothing. -/
def execApiKeys (remote : List RemoteKey) (nid : Nat) : List PlannedKey → KeyExecResult
  | [] => ⟨remote, nid, [], []⟩
  | k :: rest =>
    let expires := apiKeyExpiresToSend k.expires
    match k.mode with
    | Mode.create =>
      let r := execApiKeys
        (remote ++ [{ id := nid, description := k.description, expires := expires }])
        (nid + 1) rest
      ⟨r.remote, r.nextId, { name := k.name, id := some nid } :: r.keys,
        KeyCall.createApiKey expires :: r.calls⟩
    | Mode.update =>
      let upd := remote.map (fun d =>
        if some d.id == k.id then { d with description := k.description, expires := expires }
        else d)
      let r := execApiKeys upd nid rest
      ⟨r.remote, r.nextId, { name := k.name, id := k.id } :: r.keys,
        KeyCall.updateApiKey k.id expires :: r.calls⟩
    | Mode.ignore =>
      let r := execApiKeys remote nid rest
      ⟨r.remote, r.nextId, { name := k.name, id := k.id } :: r.keys, r.calls⟩

/-- Embedding of `createOrUpdateApiKeys(appSync, config, state, instance)`: the
paginated `listApiKeys` read happens first, then the prior-state merge, the per-key
classification (whose required-name check can throw), then the mutations.  Returns the
calls issued, the execution result and the classified modes. -/
def createOrUpdateApiKeysModel (remote : List RemoteKey) (nid : Nat)
    (stateKeys : Option (List KeyState)) (inputKeys : Option (List ApiKeyInput)) :
    List KeyCall × Except AppError (KeyExecResult × List Mode) :=
  let merged := mergedStateKeys remote stateKeys
  match classifyApiKeys merged (formatInputApiKeys inputKeys) with
  | .error e => ([KeyCall.listApiKeys], .error e)
  | .ok planned =>
    let r := execApiKeys remote nid planned
    (KeyCall.listApiKeys :: r.calls, .ok (r, planned.map (fun p => p.mode)))

/-- Embedding of `removeObsoleteApiKeys` in the closed world of the orchestrator run:
orphan names (prior-state names minus configured names) are deleted by the id the prior
state records for them; the provider delete removes the key when present and reports
NotFound otherwise, which the source swallows. -/
def removeObsoleteApiKeysModel (stateKeys : Option (List KeyState))
    (configNames : List (Option String)) (remote : List RemoteKey) :
    List RemoteKey × List KeyCall :=
  let obsolete := jsDifference ((defaultToAnArray stateKeys).map (fun st => st.name))
    configNames
  obsolete.foldl (fun acc nm =>
    match (defaultToAnArray stateKeys).find? (fun st => st.name == nm) with
    | some st =>
      (acc.1.filter (fun d => some d.id ≠ st.id), acc.2 ++ [KeyCall.deleteApiKey st.id])
    | none => acc) (remote, [])

/-- Concrete input for claim C10: one API key record without a name. -/
def c10Inputs : Option (List ApiKeyInput) :=
  some [ApiKeyInput.obj { description := some "unnamed key" }]

/-! ## Data source and resolver reconcilers (code missing from src/: `lib/datasources.js`
and `lib/resolvers.js` are referenced by `utils.js` and the orchestrator but their
bodies are not in the source pack; they are modelled from the spec's generic reconciler
pattern, section 4.2). -/

/-- A data source as held remotely.  Modelled from the spec: the remote resource has
"the same semantic fields as the corresponding Spec". -/
structure RemoteDS where
  name : String
  type : String
  serviceRoleArn : Option String := none
  config : DSConfig := {}
  deriving DecidableEq, Repr

/-- The remote data source stored for a desired spec. -/
def remoteOfDS (d : DSSpec) : RemoteDS :=
  { name := d.name, type := d.type, serviceRoleArn := d.serviceRoleArn,
    config := d.config }

/-- Modelled from the spec: data-source classification — natural key `name`; comparable
fields are the semantically significant ones (`type`, the kind-specific `config`, and
the service-role reference, which is stamped before comparison). -/
def classifyDS (remote : List RemoteDS) (d : DSSpec) : Mode :=
  match remote.find? (fun r => r.name == d.name) with
  | none => Mode.create
  | some r =>
    if r.type == d.type && r.config == d.config && r.serviceRoleArn == d.serviceRoleArn
    then Mode.ignore else Mode.update

/-- A classified data source. -/
structure PlannedDS where
  d : DSSpec
  mode : Mode
  deriving DecidableEq, Repr

/-- Modelled from the spec: execution of the planned data-source mutations — `create`
stores the spec's fields, `update` replaces the remote resource of the same name,
`ignore` calls nothing. -/
def execDS (remote : List RemoteDS) : List PlannedDS → List RemoteDS
  | [] => remote
  | p :: rest =>
    match p.mode with
    | Mode.create => execDS (remote ++ [remoteOfDS p.d]) rest
    | Mode.update =>
      execDS (remote.map (fun r => if r.name == p.d.name then remoteOfDS p.d else r)) rest
    | Mode.ignore => execDS remote rest

/-- Modelled from the spec: `createOrUpdateDataSources` — duplicate check on the
natural key `name`, classification against the fully materialized remote listing, then
the mutations; returns the post-reconciliation remote list, the post list handed back
to the orchestrator, and the planned modes. -/
def createOrUpdateDataSourcesModel (remote : List RemoteDS) (dataSources : List DSSpec) :
    Except AppError (List RemoteDS × List DSSpec × List Mode) :=
  match checkForDuplicates (fun d => d.name) dataSources with
  | .error e => .error e
  | .ok _ =>
    let planned := dataSources.map (fun d => PlannedDS.mk d (classifyDS remote d))
    .ok (execDS remote planned, dataSources, planned.map (fun p => p.mode))

/-- A resolver after template resolution; the remote resolver carries the same
fields. -/
structure ResolvedResolver where
  type : String
  field : String
  dataSource : String
  requestMappingTemplate : String
  responseMappingTemplate : String
  deriving DecidableEq, Repr

/-- Desired resolver (mapping template) item. -/
structure ResolverSpec where
  type : String
  field : String
  dataSource : String
  request : String
  response : String
  deriving DecidableEq, Repr

/-- Modelled from the spec: resolver template resolution — request/response mapping
templates read relative to the configured source root, each from its own declared
file. -/
def resolveResolver (fs : String → Option String) (src : String) (r : ResolverSpec) :
    ResolvedResolver :=
  { type := r.type, field := r.field, dataSource := r.dataSource,
    requestMappingTemplate := readIfFile fs (pathJoin src r.request),
    responseMappingTemplate := readIfFile fs (pathJoin src r.response) }

/-- Modelled from the spec: resolver classification — natural key `(type, field)`,
comparison on all semantically significant fields. -/
def classifyResolver (remote : List ResolvedResolver) (r : ResolvedResolver) : Mode :=
  match remote.find? (fun q => q.type == r.type && q.field == r.field) with
  | none => Mode.create
  | some q => if q == r then Mode.ignore else Mode.update

/-- A classified resolver. -/
structure PlannedResolver where
  r : ResolvedResolver
  mode : Mode
  deriving DecidableEq, Repr

/-- Modelled from the spec: execution of the planned resolver mutations. -/
def execResolvers (remote : List ResolvedResolver) :
    List PlannedResolver → List ResolvedResolver
  | [] => remote
  | p :: rest =>
    match p.mode with
    | Mode.create => execResolvers (remote ++ [p.r]) rest
    | Mode.update =>
      execResolvers (remote.map (fun q =>
        if q.type == p.r.type && q.field == p.r.field then p.r else q)) rest
    | Mode.ignore => execResolvers remote rest

/-- Modelled from the spec: `createOrUpdateResolvers` — duplicate check on
`(type, field)`, resolution, classification, execution. -/
def createOrUpdateResolversModel (fs : String → Option String) (src : String)
    (remote : List ResolvedResolver) (resolvers : List ResolverSpec) :
    Except AppError (List ResolvedResolver × List ResolvedResolver × List Mode) :=
  match checkForDuplicates (fun r => (r.type, r.field)) resolvers with
  | .error e => .error e
  | .ok _ =>
    let resolved := resolvers.map (resolveResolver fs src)
    let planned := resolved.map (fun r => PlannedResolver.mk r (classifyResolver remote r))
    .ok (execResolvers remote planned, resolved, planned.map (fun p => p.mode))

/-- Persisted data-source entry: `pick(['name', 'type'])`. -/
structure DSStateEntry where
  name : String
  type : String
  deriving DecidableEq, Repr

/-- Persisted resolver entry: `pick(['type', 'field'])`. -/
structure ResStateEntry where
  type : String
  field : String
  deriving DecidableEq, Repr

/-- Projection of a data source onto its persisted entry. -/
def dsProj (d : DSSpec) : DSStateEntry := { name := d.name, type := d.type }

/-- Projection of a resolved resolver onto its persisted entry. -/
def resProj (r : ResolvedResolver) : ResStateEntry := { type := r.type, field := r.field }

/-- Natural-key projection of a returned function object
(`map(pick(['name', 'dataSource']), config.functions)`). -/
def plannedFnProj (p : PlannedFn) : FnKeyProj :=
  { name := p.f.name, dataSource := p.f.dataSource }

/-- Persisted entry of a returned function object
(`map(pick(['name', 'dataSource', 'functionId']), config.functions)`). -/
def plannedFnState (p : PlannedFn) : FnStateEntry :=
  { name := p.f.name, dataSource := p.f.dataSource, functionId := p.functionId }

/-- Modelled from the spec: `removeObsoleteDataSources` in the closed world of the
orchestrator run — orphans (prior-state projections minus configured projections) are
deleted by name; an already-absent resource is a swallowed NotFound. -/
def removeObsoleteDataSourcesModel (stateDS : Option (List DSStateEntry))
    (configProj : List DSStateEntry) (remote : List RemoteDS) : List RemoteDS :=
  let obsolete := jsDifference (defaultToAnArray stateDS) configProj
  remote.filter (fun r => ¬ obsolete.any (fun o => o.name == r.name))

/-- Modelled from the spec: `removeObsoleteResolvers` in the closed world of the
orchestrator run. -/
def removeObsoleteResolversModel (stateRes : Option (List ResStateEntry))
    (configProj : List ResStateEntry) (remote : List ResolvedResolver) :
    List ResolvedResolver :=
  let obsolete := jsDifference (defaultToAnArray stateRes) configProj
  remote.filter (fun r => ¬ obsolete.any (fun o => o.type == r.type && o.field == r.field))

/-- The `removeObsoleteFunctions` effect in the closed world of the orchestrator run:
each orphan's recorded id is deleted from the remote list (an absent id is a swallowed
NotFound). -/
def removeObsoleteFunctionsRun (stateFns : Option (List FnStateEntry))
    (configKeys : List FnKeyProj) (remote : List RemoteFn) : List RemoteFn :=
  let obsolete := jsDifference ((defaultToAnArray stateFns).map fnProj) configKeys
  let ids := obsolete.map (fnStateLookup (defaultToAnArray stateFns))
  remote.filter (fun d => ¬ ids.contains (some d.functionId))

/-! ## Orchestrator (`src/unnamed/part_000`, `AwsAppSync.default`) -/

/-- Environment constants of one run: the resolved API container
(`createOrUpdateGraphqlApi` is deterministic given no drift) and the caller's account
id. -/
structure RunEnv where
  apiId : String := "api-id"
  arn : String := "api-arn"
  uris : String := "uris"
  accountId : String := "123456789012"
  deriving DecidableEq, Repr

/-- The desired configuration consumed by one orchestrator run. -/
structure RunConfig where
  name : String := "api"
  region : String := "us-east-1"
  src : String := "src"
  isApiCreator : Bool := true
  schema : Option String := none
  dataSources : List DSSpec := []
  mappingTemplates : List ResolverSpec := []
  functions : List FnSpec := []
  apiKeys : Option (List ApiKeyInput) := none
  deriving DecidableEq, Repr

/-- The component state persisted by `this.save()` (absent fields on a fresh
component are `none`). -/
structure CompState where
  apiId : Option String := none
  arn : Option String := none
  uris : Option String := none
  schemaChecksum : Option String := none
  apiKeys : Option (List KeyState) := none
  dataSources : Option (List DSStateEntry) := none
  mappingTemplates : Option (List ResStateEntry) := none
  functions : Option (List FnStateEntry) := none
  deriving DecidableEq, Repr

/-- The provider's remote state across runs, with the fresh-id supply. -/
structure RemoteState where
  dataSources : List RemoteDS := []
  resolvers : List ResolvedResolver := []
  functions : List RemoteFn := []
  apiKeys : List RemoteKey := []
  schemaSaved : Option String := none
  nextId : Nat := 0
  deriving DecidableEq, Repr

/-- Output of one orchestrator run: the persisted state, the remote state left behind,
the per-kind classified modes, and whether a schema creation was submitted. -/
structure RunOut where
  state : CompState
  remote : RemoteState
  dsModes : List Mode
  resolverModes : List Mode
  fnModes : List Mode
  keyModes : List Mode
  schemaSubmitted : Bool
  deriving DecidableEq, Repr

/-- The orchestrator's stamping of the synthesized service role onto data sources that
lack one (`datasource.serviceRoleArn = serviceRole.arn`). -/
def stampDataSources (arn : Option String) (l : List DSSpec) : List DSSpec :=
  l.map (fun ds => if ds.serviceRoleArn.isNone then { ds with serviceRoleArn := arn } else ds)

/-- True for the schema-submission call. -/
def isStartCall : SchemaCall → Bool
  | SchemaCall.startSchemaCreation _ => true
  | _ => false

/-- The schema definition held remotely after the issued schema calls. -/
def schemaSavedAfter (calls : List SchemaCall) (old : Option String) : Option String :=
  calls.foldl (fun acc c =>
    match c with
    | SchemaCall.startSchemaCreation t => some t
    | _ => acc) old

/-- Embedding of the orchestrator `AwsAppSync.default(inputs)` over the closed world:
resolve the API container (environment constants), synthesize the service role (whose
result object carries `roleArn`/`policyArn` but no `arn` field, so the stamped
`serviceRole.arn` is undefined), reconcile data sources, converge the schema, reconcile
resolvers, functions and API keys, remove obsolete resources, and assemble the
persisted state.  `σ`/`fuel` drive the schema polling loop as in `createSchemaModel`. -/
def defaultRun (env : RunEnv) (fs : String → Option String) (cks : String → String)
    (inputs : RunConfig) (state : CompState) (remote : RemoteState)
    (σ : Nat → String) (fuel : Nat) : Except AppError RunOut :=
  match createServiceRoleStatements env.accountId inputs.region inputs.dataSources with
  | .error e => .error e
  | .ok _statements =>
    let dataSources := stampDataSources none inputs.dataSources
    match createOrUpdateDataSourcesModel remote.dataSources dataSources with
    | .error e => .error e
    | .ok (dsRemote, dsList, dsModes) =>
      match createSchemaModel fs cks
          { schema := inputs.schema, isApiCreator := inputs.isApiCreator,
            src := inputs.src, apiId := env.apiId } state.schemaChecksum σ fuel with
      | none => .error .pollTimeout
      | some (schemaChecksum, schemaCalls) =>
        match createOrUpdateResolversModel fs inputs.src remote.resolvers
            inputs.mappingTemplates with
        | .error e => .error e
        | .ok (resRemote, resList, resolverModes) =>
          match (createOrUpdateFunctionsModel fs inputs.src (some inputs.functions)
              remote.functions remote.nextId).2 with
          | .error e => .error e
          | .ok fnRes =>
            match (createOrUpdateApiKeysModel remote.apiKeys fnRes.nextId
                state.apiKeys inputs.apiKeys).2 with
            | .error e => .error e
            | .ok (keyRes, keyModes) =>
              let dsRemote2 := removeObsoleteDataSourcesModel state.dataSources
                (dsList.map dsProj) dsRemote
              let resRemote2 := removeObsoleteResolversModel state.mappingTemplates
                (resList.map resProj) resRemote
              let fnRemote2 := removeObsoleteFunctionsRun state.functions
                (fnRes.funcs.map plannedFnProj) fnRes.remote
              let keyRemote2 := (removeObsoleteApiKeysModel state.apiKeys
                (keyRes.keys.map (fun k => k.name)) keyRes.remote).1
              .ok
                { state :=
                    { apiId := some env.apiId, arn := some env.arn,
                      uris := some env.uris,
                      schemaChecksum := schemaChecksum,
                      apiKeys := some keyRes.keys,
                      dataSources := some (dsList.map dsProj),
                      mappingTemplates := some (resList.map resProj),
                      functions := some (fnRes.funcs.map plannedFnState) },
                  remote :=
                    { dataSources := dsRemote2, resolvers := resRemote2,
                      functions := fnRemote2, apiKeys := keyRemote2,
                      schemaSaved := schemaSavedAfter schemaCalls remote.schemaSaved,
                      nextId := keyRes.nextId },
                  dsModes := dsModes, resolverModes := resolverModes,
                  fnModes := fnRes.funcs.map (fun p => p.mode),
                  keyModes := keyModes,
                  schemaSubmitted := schemaCalls.any isStartCall }

/-- Concrete desired configuration for the C2 counterexample: one API key whose expiry
is given in epoch milliseconds. -/
def c2Config : RunConfig :=
  { isApiCreator := false,
    apiKeys := some [ApiKeyInput.obj { name := some "k", expires := some 1700000000000 }] }

/-! ## Index-threaded images of a first run executed against an empty environment -/

/-- Remote functions created by a first run, ids assigned sequentially. -/
def createdFnsFrom (n0 : Nat) : List ResolvedFn → List RemoteFn
  | [] => []
  | r :: rest =>
    remoteOfParams (PlannedFn.mk r Mode.create none) n0 :: createdFnsFrom (n0 + 1) rest

/-- Function objects returned by a first run (mode `create`, captured ids). -/
def createdPlannedFrom (n0 : Nat) : List ResolvedFn → List PlannedFn
  | [] => []
  | r :: rest => PlannedFn.mk r Mode.create (some n0) :: createdPlannedFrom (n0 + 1) rest

/-- Function objects returned by a second run (mode `ignore`, same ids). -/
def ignoredPlannedFrom (n0 : Nat) : List ResolvedFn → List PlannedFn
  | [] => []
  | r :: rest => PlannedFn.mk r Mode.ignore (some n0) :: ignoredPlannedFrom (n0 + 1) rest

/-- Remote API keys created by a first run. -/
def createdKeysFrom (n0 : Nat) : List ApiKeyRec → List RemoteKey
  | [] => []
  | k :: rest =>
    { id := n0, description := k.description, expires := apiKeyExpiresToSend k.expires } ::
      createdKeysFrom (n0 + 1) rest

/-- Persisted API key entries after a first run. -/
def keyStatesFrom (n0 : Nat) : List ApiKeyRec → List KeyState
  | [] => []
  | k :: rest => { name := k.name, id := some n0 } :: keyStatesFrom (n0 + 1) rest

/-- The merged state keys a second run computes from the first run's remote keys and
persisted entries. -/
def mergedFrom (n0 : Nat) : List ApiKeyRec → List MergedKey
  | [] => []
  | k :: rest =>
    { name := k.name, id := n0, description := k.description,
      expires := apiKeyExpiresToSend k.expires } :: mergedFrom (n0 + 1) rest

/-- Planned API keys of a second run: everything `ignore`, ids recovered from the
prior state. -/
def ignoredKeysFrom (n0 : Nat) : List ApiKeyRec → List PlannedKey
  | [] => []
  | k :: rest =>
    { name := k.name, id := some n0, description := k.description, expires := k.expires,
      mode := Mode.ignore } :: ignoredKeysFrom (n0 + 1) rest

/-- Natural-key projection of a resolved function. -/
def resolvedFnProj (r : ResolvedFn) : FnKeyProj :=
  { name := r.name, dataSource := r.dataSource }

/-- The planned item a first run computes for a desired API key never seen before. -/
def createPlannedOfKey (k : ApiKeyRec) : PlannedKey :=
  { name := k.name, id := none, description := k.description, expires := k.expires,
    mode := Mode.create }

/-- Concrete desired configuration for the C2 witness: one data source with an
explicit role, one resolver, one function, one named API key with an epoch-seconds
expiry. -/
def c2WitnessConfig : RunConfig :=
  { isApiCreator := false,
    dataSources :=
      [{ name := "d1", type := "AWS_LAMBDA",
         serviceRoleArn := some "arn:aws:iam::123456789012:role/r" }],
    mappingTemplates :=
      [{ type := "Query", field := "getX", dataSource := "d1",
         request := "req.vtl", response := "res.vtl" }],
    functions :=
      [{ name := "f1", dataSource := "d1", request := "q.vtl",
         response := "p.vtl" }],
    apiKeys := some [ApiKeyInput.obj { name := some "k", expires := some 1700000000 }] }

/-! ## Theorems -/

/-- Claim C1.  The claim says that when every data source carries an explicit
`serviceRoleArn`, `createServiceRole` creates no role.  On the code this fails: the
synthesized statement list is empty, yet the guard `if (statements)` tests JavaScript
truthiness of an array, which is always true, so `createRole` is invoked (with an empty
statement list) anyway.  This theorem evaluates the embedding at the failing input. -/
theorem c1_createServiceRole_always_invokes_createRole :
    (c1DataSources.all (fun ds => ds.serviceRoleArn.isSome)) = true ∧
    createServiceRoleStatements "123456789012" "us-east-1" c1DataSources = .ok [] ∧
    createServiceRoleModel "123456789012" "us-east-1" "myapi" c1DataSources =
      .ok (.createRole [] "myapi") := by
  refine ⟨rfl, rfl, rfl⟩

/-- Claim C3, counterexample.  With no declared schema, a non-creator caller and prior
checksum `"abc"`, `createSchema` performs no mutation but resolves to `undefined`
(`Promise.resolve()`), not to the prior checksum, so "returns the prior state's schema
checksum unchanged" is false. -/
theorem c3_counterexample :
    createSchemaModel (fun _ => none) (fun s => s) c3Config (some "abc")
      (fun _ => "SUCCESS") 1 = some (none, []) ∧
    (none : Option String) ≠ some "abc" := by
  exact ⟨rfl, by decide⟩

/-- Claim C3 (amended).  If the configuration declares no schema and the caller is not
the API's original creator, `createSchema` performs no mutation (no
`startSchemaCreation` call, indeed no remote call at all) and returns `undefined` — the
prior checksum is not carried forward. -/
theorem c3_no_schema_not_creator_skips (fs : String → Option String)
    (cks : String → String) (config : SchemaConfig) (st : Option String)
    (σ : Nat → String) (fuel : Nat) (hschema : config.schema = none)
    (hcreator : config.isApiCreator = false) :
    createSchemaModel fs cks config st σ fuel = some (none, []) := by
  unfold createSchemaModel
  simp [hschema, hcreator]

/-- Witness for the amended claim C3 at a concrete input. -/
theorem c3_no_schema_not_creator_skips_witness :
    createSchemaModel (fun _ => none) (fun s => s) c3Config (some "prior")
      (fun _ => "X") 0 = some (none, []) :=
  c3_no_schema_not_creator_skips _ _ c3Config _ _ _ rfl rfl

/-- Helper: the polling loop exits exactly at the first terminal status, producing one
status poll per iteration with a one-second sleep after each non-terminal poll. -/
theorem pollCalls_first_terminal (σ : Nat → String) :
    ∀ (k i fuel : Nat), k < fuel → (∀ j, j < k → terminalStatus (σ (i + j)) = false) →
      terminalStatus (σ (i + k)) = true →
      pollCalls σ fuel i = some (pollPattern σ i k) := by
  intro k
  induction k with
  | zero =>
    intro i fuel hfuel _ hterm
    match fuel, hfuel with
    | f + 1, _ =>
      simp only [pollCalls]
      simp only [Nat.add_zero] at hterm
      simp [hterm, pollPattern]
  | succ k ih =>
    intro i fuel hfuel hpre hterm
    match fuel, hfuel with
    | f + 1, hfuel =>
      have h0 : terminalStatus (σ i) = false := by
        have := hpre 0 (Nat.succ_pos k)
        simpa using this
      simp only [pollCalls, h0]
      have hrec := ih (i + 1) f (Nat.lt_of_succ_lt_succ hfuel)
        (fun j hj => by
          have := hpre (j + 1) (Nat.succ_lt_succ hj)
          simpa [Nat.add_assoc, Nat.add_comm 1 j] using this)
        (by
          have : i + (k + 1) = i + 1 + k := by omega
          rw [this] at hterm
          exact hterm)
      rw [hrec]
      have harg : ∀ j, i + 1 + j = i + (j + 1) := by omega
      have htail : i + 1 + k = i + (k + 1) := by omega
      simp [pollPattern, List.range_succ_eq_map, List.map_map, Function.comp_def,
        harg, htail]

/-- Helper: with no terminal status anywhere in the stream, the loop never exits — for
every fuel bound the model reports non-termination, matching the absence of any
timeout or attempt cap in the source. -/
theorem pollCalls_no_terminal_none (σ : Nat → String)
    (h : ∀ j, terminalStatus (σ j) = false) :
    ∀ (fuel i : Nat), pollCalls σ fuel i = none := by
  intro fuel
  induction fuel with
  | zero => intro i; rfl
  | succ f ih =>
    intro i
    simp only [pollCalls, h i]
    simp [ih (i + 1)]

/-- Claim C7.  Let `c` be the checksum of the resolved schema text.  (1) If the prior
checksum equals `c`, `createSchema` makes no remote call at all — in particular no
`startSchemaCreation` — and returns a checksum equal to the prior one.  (2) If it
differs, the function submits the schema and polls `getSchemaCreationStatus` at a fixed
one-second interval, exiting exactly at the first status in
{FAILED, SUCCESS, NOT_APPLICABLE}.  (3) There is no timeout or attempt cap: if the
stream never reaches a terminal status, the loop runs beyond every bound. -/
theorem c7_schema_checksum_and_polling (fs : String → Option String)
    (cks : String → String) (config : SchemaConfig) (st : Option String)
    (σ : Nat → String) (fuel k : Nat)
    (hresolved : config.schema.isSome ∨ config.isApiCreator = true) :
    (st = some (cks (resolvedSchemaText fs config)) →
      createSchemaModel fs cks config st σ fuel =
        some (some (cks (resolvedSchemaText fs config)), [])) ∧
    (st ≠ some (cks (resolvedSchemaText fs config)) → k < fuel →
      (∀ j, j < k → terminalStatus (σ j) = false) → terminalStatus (σ k) = true →
      createSchemaModel fs cks config st σ fuel =
        some (some (cks (resolvedSchemaText fs config)),
          SchemaCall.startSchemaCreation (resolvedSchemaText fs config) ::
            pollPattern σ 0 k)) ∧
    ((∀ j, terminalStatus (σ j) = false) →
      createSchemaModel fs cks config st σ fuel = none ∨
      createSchemaModel fs cks config st σ fuel =
        some (some (cks (resolvedSchemaText fs config)), [])) := by
  have hguard : (config.schema.isNone && !config.isApiCreator) = false := by
    rcases hresolved with h | h
    · simp [Option.isNone_iff_eq_none, Option.isSome_iff_exists] at h ⊢
      rcases h with ⟨a, ha⟩
      simp [ha]
    · simp [h]
  refine ⟨?_, ?_, ?_⟩
  · intro heq
    unfold createSchemaModel
    simp [hguard, heq]
  · intro hne hfuel hpre hterm
    unfold createSchemaModel
    have hpoll := pollCalls_first_terminal σ k 0 fuel hfuel
      (fun j hj => by simpa using hpre j hj) (by simpa using hterm)
    simp [hguard, hne, hpoll]
  · intro hnone
    unfold createSchemaModel
    by_cases heq : st = some (cks (resolvedSchemaText fs config))
    · right
      simp [hguard, heq]
    · left
      have hpoll := pollCalls_no_terminal_none σ hnone fuel 0
      simp [hguard, heq, hpoll]

/-- Witness for claim C7, exercising each conjunct at concrete inputs: the
checksum-equal case makes no call and returns the prior checksum; the mismatch case
submits once and polls twice (one PROCESSING poll, one sleep, one SUCCESS poll); a
never-terminal stream exhausts any bound. -/
theorem c7_schema_checksum_and_polling_witness :
    (createSchemaModel (fun _ => some "type Query") (fun s => "sum-" ++ s)
      { schema := some "schema.graphql", isApiCreator := true, src := "s", apiId := "a" }
      (some "sum-type Query") (fun _ => "PROCESSING") 3 =
      some (some "sum-type Query", [])) ∧
    (createSchemaModel (fun _ => some "type Query") (fun s => "sum-" ++ s)
      { schema := some "schema.graphql", isApiCreator := true, src := "s", apiId := "a" }
      none (fun j => if j = 0 then "PROCESSING" else "SUCCESS") 3 =
      some (some "sum-type Query",
        [SchemaCall.startSchemaCreation "type Query",
         SchemaCall.getStatus "PROCESSING", SchemaCall.sleepMs 1000,
         SchemaCall.getStatus "SUCCESS"])) ∧
    (createSchemaModel (fun _ => some "type Query") (fun s => "sum-" ++ s)
      { schema := some "schema.graphql", isApiCreator := true, src := "s", apiId := "a" }
      none (fun _ => "PROCESSING") 5 = none ∨
     createSchemaModel (fun _ => some "type Query") (fun s => "sum-" ++ s)
      { schema := some "schema.graphql", isApiCreator := true, src := "s", apiId := "a" }
      none (fun _ => "PROCESSING") 5 =
      some (some ("sum-" ++ "type Query"), [])) := by
  refine ⟨?_, ?_, ?_⟩
  · have h := (c7_schema_checksum_and_polling (fun _ => some "type Query")
      (fun s => "sum-" ++ s)
      { schema := some "schema.graphql", isApiCreator := true, src := "s", apiId := "a" }
      (some "sum-type Query") (fun _ => "PROCESSING") 3 0
      (Or.inl rfl)).1 (by decide)
    simpa [resolvedSchemaText, readIfFile, pathJoin] using h
  · have h := (c7_schema_checksum_and_polling (fun _ => some "type Query")
      (fun s => "sum-" ++ s)
      { schema := some "schema.graphql", isApiCreator := true, src := "s", apiId := "a" }
      none (fun j => if j = 0 then "PROCESSING" else "SUCCESS") 3 1
      (Or.inl rfl)).2.1 (by decide) (by decide)
      (fun j hj => by
        interval_cases j
        decide)
      (by decide)
    simpa [pollPattern, resolvedSchemaText, readIfFile, pathJoin] using h
  · have h := (c7_schema_checksum_and_polling (fun _ => some "type Query")
      (fun s => "sum-" ++ s)
      { schema := some "schema.graphql", isApiCreator := true, src := "s", apiId := "a" }
      none (fun _ => "PROCESSING") 5 0 (Or.inl rfl)).2.2
      (fun _ => by decide)
    simpa [resolvedSchemaText, readIfFile, pathJoin] using h

/-- Claim C4.  The claim says each template field resolves from its own declared file.
On the code this fails for the response side: with `request := req.vtl` holding
`REQUEST TEMPLATE` and `response := res.vtl` holding `RESPONSE TEMPLATE`, the resolved
`responseMappingTemplate` is the request file's text, because
`createOrUpdateFunctions` reads `path.join(config.src, func.request)` for both
templates. -/
theorem c4_response_template_read_from_request_file :
    (resolveFn c4Fs "src" c4Fn).requestMappingTemplate = "REQUEST TEMPLATE" ∧
    (resolveFn c4Fs "src" c4Fn).responseMappingTemplate = "REQUEST TEMPLATE" ∧
    c4Fs (pathJoin "src" c4Fn.response) = some "RESPONSE TEMPLATE" ∧
    (resolveFn c4Fs "src" c4Fn).responseMappingTemplate ≠ "RESPONSE TEMPLATE" := by
  refine ⟨rfl, rfl, rfl, by decide⟩

/-- Claim C6.  For every desired function item and remote list, the classification of
`createOrUpdateFunctions` is: no remote item matching the natural key
`(name, dataSource)` gives `create`; a match that differs on the compared field subset
(`dataSourceName`, `name`, `responseMappingTemplate`, `requestMappingTemplate`) gives
`update`; a match equal on that subset gives `ignore`. -/
theorem c6_function_classification (fs : String → Option String) (src : String)
    (deployed : List RemoteFn) (f : FnSpec) :
    (classifyFn deployed (resolveFn fs src f)).mode =
      (match deployed.find?
          (fun d => d.name == f.name && d.dataSourceName == f.dataSource) with
       | none => Mode.create
       | some d => if equalsByKeysFn d (resolveFn fs src f) then Mode.ignore
                   else Mode.update) := by
  have hpred : (findDeployedFn deployed (resolveFn fs src f)) =
      deployed.find? (fun d => d.name == f.name && d.dataSourceName == f.dataSource) := by
    rfl
  simp only [classifyFn, hpred]
  cases hfind : deployed.find?
      (fun d => d.name == f.name && d.dataSourceName == f.dataSource) with
  | none => simp
  | some d =>
    cases heq : equalsByKeysFn d (resolveFn fs src f) <;> simp [heq]

/-- Helper: the boolean duplicate test agrees with non-`Nodup` of the key
projections. -/
theorem hasDupBy_iff [DecidableEq κ] (key : α → κ) (l : List α) :
    hasDupBy key l = true ↔ ¬ (l.map key).Nodup := by
  induction l with
  | nil => simp [hasDupBy]
  | cons a rest ih =>
    simp only [hasDupBy, Bool.or_eq_true, List.any_eq_true, beq_iff_eq, ih,
      List.map_cons, List.nodup_cons, List.mem_map]
    constructor
    · rintro (⟨b, hb, hkey⟩ | hnd)
      · intro hcontra
        exact hcontra.1 ⟨b, hb, hkey⟩
      · intro hcontra
        exact hnd hcontra.2
    · intro h
      by_cases hmem : ∃ b ∈ rest, key b = key a
      · exact Or.inl hmem
      · right
        intro hnd
        exact h ⟨hmem, hnd⟩

/-- Claim C9.  The duplicate check of `createOrUpdateFunctions` fails with a
`ConfigurationError` exactly when two desired items share the natural-key projection
`(name, dataSource)`, and in that case no remote call of any kind has been issued. -/
theorem c9_duplicate_check_fails_fast (fs : String → Option String) (src : String)
    (functions : List FnSpec) (remote : List RemoteFn) (nid : Nat) :
    ((createOrUpdateFunctionsModel fs src (some functions) remote nid).2 =
        .error AppError.configurationError ↔ ¬ (functions.map fnKey).Nodup) ∧
    (¬ (functions.map fnKey).Nodup →
      (createOrUpdateFunctionsModel fs src (some functions) remote nid).1 = []) := by
  by_cases h : hasDupBy fnKey functions = true
  · have hnd := (hasDupBy_iff fnKey functions).mp h
    constructor
    · simp [createOrUpdateFunctionsModel, checkForDuplicates, defaultToAnArray, h, hnd]
    · intro _
      simp [createOrUpdateFunctionsModel, checkForDuplicates, defaultToAnArray, h]
  · have hb : hasDupBy fnKey functions = false := by
      cases hv : hasDupBy fnKey functions
      · rfl
      · exact absurd hv h
    have hnd : (functions.map fnKey).Nodup := by
      by_contra hcontra
      exact h ((hasDupBy_iff fnKey functions).mpr hcontra)
    constructor
    · simp [createOrUpdateFunctionsModel, checkForDuplicates, defaultToAnArray, hb, hnd]
    · intro hcontra
      exact absurd hnd hcontra

/-- Witness for claim C9: a concrete configuration with two functions sharing the
natural key fails with a `ConfigurationError` and issues no remote call. -/
theorem c9_duplicate_check_fails_fast_witness :
    (createOrUpdateFunctionsModel (fun _ => none) "src" (some c9DupFns) [] 0).2 =
      .error AppError.configurationError ∧
    (createOrUpdateFunctionsModel (fun _ => none) "src" (some c9DupFns) [] 0).1 = [] := by
  have h := c9_duplicate_check_fails_fast (fun _ => none) "src" c9DupFns [] 0
  exact ⟨h.1.mpr (by decide), h.2 (by decide)⟩

/-- Helper: membership in the `difference` worker. -/
theorem mem_jsDifferenceAux [DecidableEq α] (l2 l1 : List α) :
    ∀ (seen : List α) (x : α),
      x ∈ jsDifferenceAux l2 seen l1 ↔ (x ∈ l1 ∧ x ∉ l2 ∧ x ∉ seen) := by
  induction l1 with
  | nil => intro seen x; simp [jsDifferenceAux]
  | cons y xs ih =>
    intro seen x
    by_cases hy : y ∈ l2 ∨ y ∈ seen
    · rw [jsDifferenceAux, if_pos hy, ih]
      constructor
      · rintro ⟨hx, h2, hs⟩
        exact ⟨List.mem_cons_of_mem _ hx, h2, hs⟩
      · rintro ⟨hx, h2, hs⟩
        rcases List.mem_cons.mp hx with rfl | hx
        · rcases hy with h | h
          · exact absurd h h2
          · exact absurd h hs
        · exact ⟨hx, h2, hs⟩
    · rw [jsDifferenceAux, if_neg hy]
      push_neg at hy
      rw [List.mem_cons, ih]
      constructor
      · rintro (rfl | ⟨hx, h2, hs⟩)
        · exact ⟨List.mem_cons_self _ _, hy.1, hy.2⟩
        · refine ⟨List.mem_cons_of_mem _ hx, h2, fun hcon => ?_⟩
          exact hs (List.mem_cons_of_mem _ hcon)
      · rintro ⟨hx, h2, hs⟩
        by_cases hxy : x = y
        · exact Or.inl hxy
        · rcases List.mem_cons.mp hx with h | h
          · exact absurd h hxy
          · right
            refine ⟨h, h2, fun hcon => ?_⟩
            rcases List.mem_cons.mp hcon with h' | h'
            · exact hxy h'
            · exact hs h'

/-- Helper: membership in the ramda `difference` model. -/
theorem mem_jsDifference [DecidableEq α] (l1 l2 : List α) (x : α) :
    x ∈ jsDifference l1 l2 ↔ x ∈ l1 ∧ x ∉ l2 := by
  rw [jsDifference, mem_jsDifferenceAux]
  simp

/-- Helper: the ramda `difference` model never repeats an element. -/
theorem nodup_jsDifference [DecidableEq α] (l1 l2 : List α) :
    (jsDifference l1 l2).Nodup := by
  rw [jsDifference]
  have haux : ∀ seen : List α, (jsDifferenceAux l2 seen l1).Nodup := by
    induction l1 with
    | nil => intro seen; simp [jsDifferenceAux]
    | cons y xs ih =>
      intro seen
      by_cases hy : y ∈ l2 ∨ y ∈ seen
      · rw [jsDifferenceAux, if_pos hy]; exact ih seen
      · rw [jsDifferenceAux, if_neg hy]
        refine List.nodup_cons.mpr ⟨?_, ih (y :: seen)⟩
        intro hcon
        have := (mem_jsDifferenceAux l2 xs (y :: seen) y).mp hcon
        exact this.2.2 (List.mem_cons_self _ _)
  exact haux []

/-- Helper: `difference` of a list with a superset of itself is empty. -/
theorem jsDifference_subset_nil [DecidableEq α] (l1 l2 : List α)
    (h : ∀ x ∈ l1, x ∈ l2) : jsDifference l1 l2 = [] := by
  rcases hd : jsDifference l1 l2 with _ | ⟨x, rest⟩
  · rfl
  · have hx : x ∈ jsDifference l1 l2 := by rw [hd]; exact List.mem_cons_self _ _
    have := (mem_jsDifference l1 l2 x).mp hx
    exact absurd (h x this.1) this.2

/-- Helper: the removal loop with benign outcomes issues exactly the recorded delete
per key, provided every key appears in the prior state's projection. -/
theorem removeObsoleteFnGo_ok (outcome : Option Nat → DeleteOutcome)
    (stateFns : List FnStateEntry) (keys : List FnKeyProj)
    (hmem : ∀ k ∈ keys, k ∈ stateFns.map fnProj)
    (hbenign : ∀ k ∈ keys, outcome (fnStateLookup stateFns k) ≠ DeleteOutcome.fail) :
    removeObsoleteFnGo outcome stateFns keys = .ok (keys.map (fnStateLookup stateFns)) := by
  induction keys with
  | nil => rfl
  | cons k rest ih =>
    have hk := hmem k (List.mem_cons_self _ _)
    rcases List.mem_map.mp hk with ⟨e, he, hkey⟩
    have hpred : (fun e : FnStateEntry => e.name == k.name && e.dataSource == k.dataSource) e = true := by
      simp [← hkey, fnProj]
    cases hfind : stateFns.find? (fun e => e.name == k.name && e.dataSource == k.dataSource) with
    | none =>
      have := List.find?_eq_none.mp hfind e he
      exact absurd hpred this
    | some e' =>
      have hlook : fnStateLookup stateFns k = e'.functionId := by
        simp [fnStateLookup, hfind]
      have hout := hbenign k (List.mem_cons_self _ _)
      rw [hlook] at hout
      rw [removeObsoleteFnGo, hfind]
      have hrest := ih (fun k' hk' => hmem k' (List.mem_cons_of_mem _ hk'))
        (fun k' hk' => hbenign k' (List.mem_cons_of_mem _ hk'))
      cases hv : outcome e'.functionId with
      | fail => exact absurd hv hout
      | ok => simp [hv, hrest, Except.map, hlook]
      | notFound => simp [hv, hrest, Except.map, hlook]

/-- Helper: a failing delete outcome propagates out of the removal loop when every
earlier orphan's delete was benign and every orphan is recorded in the prior state. -/
theorem removeObsoleteFnGo_fail (outcome : Option Nat → DeleteOutcome)
    (stateFns : List FnStateEntry) (l1 : List FnKeyProj) (k : FnKeyProj)
    (l2 : List FnKeyProj)
    (hmem : ∀ k' ∈ l1 ++ k :: l2, k' ∈ stateFns.map fnProj)
    (hbenign : ∀ k' ∈ l1, outcome (fnStateLookup stateFns k') ≠ DeleteOutcome.fail)
    (hfail : outcome (fnStateLookup stateFns k) = DeleteOutcome.fail) :
    removeObsoleteFnGo outcome stateFns (l1 ++ k :: l2) = .error .providerError := by
  induction l1 with
  | nil =>
    have hk := hmem k (by simp)
    rcases List.mem_map.mp hk with ⟨e, he, hkey⟩
    have hpred : (fun e : FnStateEntry => e.name == k.name && e.dataSource == k.dataSource) e = true := by
      simp [← hkey, fnProj]
    cases hfind : stateFns.find? (fun e => e.name == k.name && e.dataSource == k.dataSource) with
    | none =>
      have := List.find?_eq_none.mp hfind e he
      exact absurd hpred this
    | some e' =>
      have hlook : fnStateLookup stateFns k = e'.functionId := by
        simp [fnStateLookup, hfind]
      rw [hlook] at hfail
      simp only [List.nil_append]
      rw [removeObsoleteFnGo, hfind]
      simp [hfail]
  | cons q qs ih =>
    have hq := hmem q (by simp)
    rcases List.mem_map.mp hq with ⟨e, he, hkey⟩
    have hpred : (fun e : FnStateEntry => e.name == q.name && e.dataSource == q.dataSource) e = true := by
      simp [← hkey, fnProj]
    cases hfind : stateFns.find? (fun e => e.name == q.name && e.dataSource == q.dataSource) with
    | none =>
      have := List.find?_eq_none.mp hfind e he
      exact absurd hpred this
    | some e' =>
      have hlook : fnStateLookup stateFns q = e'.functionId := by
        simp [fnStateLookup, hfind]
      have hout := hbenign q (List.mem_cons_self _ _)
      rw [hlook] at hout
      have hrest := ih (fun k' hk' => hmem k' (by simp at hk' ⊢; tauto))
        (fun k' hk' => hbenign k' (List.mem_cons_of_mem _ hk'))
      simp only [List.cons_append]
      rw [removeObsoleteFnGo, hfind]
      cases hv : outcome e'.functionId with
      | fail => exact absurd hv hout
      | ok => simp [hv, hrest, Except.map]
      | notFound => simp [hv, hrest, Except.map]

/-- Claim C8.  `removeObsoleteFunctions` issues exactly one delete per natural-key
projection present in the prior state but absent from the desired configuration: the
orphan list never repeats a key and contains exactly the projections in
`state − desired`; with every delete answered benignly (success or
`NotFoundException`, the latter being swallowed) the operation completes without error,
returning the recorded id per orphan; a non-`NotFoundException` failure propagates. -/
theorem c8_remove_obsolete_functions :
    (∀ (outcome : Option Nat → DeleteOutcome) (stateFns : List FnStateEntry)
       (configKeys : List FnKeyProj),
      (∀ k ∈ jsDifference (stateFns.map fnProj) configKeys,
        outcome (fnStateLookup stateFns k) ≠ DeleteOutcome.fail) →
      removeObsoleteFunctionsModel outcome (some stateFns) configKeys =
        .ok ((jsDifference (stateFns.map fnProj) configKeys).map
          (fnStateLookup stateFns))) ∧
    (∀ (stateFns : List FnStateEntry) (configKeys : List FnKeyProj),
      (jsDifference (stateFns.map fnProj) configKeys).Nodup ∧
      (∀ k, k ∈ jsDifference (stateFns.map fnProj) configKeys ↔
        (k ∈ stateFns.map fnProj ∧ k ∉ configKeys))) ∧
    (∀ (outcome : Option Nat → DeleteOutcome) (stateFns : List FnStateEntry)
       (configKeys : List FnKeyProj) (l1 : List FnKeyProj) (k : FnKeyProj)
       (l2 : List FnKeyProj),
      jsDifference (stateFns.map fnProj) configKeys = l1 ++ k :: l2 →
      (∀ k' ∈ l1, outcome (fnStateLookup stateFns k') ≠ DeleteOutcome.fail) →
      outcome (fnStateLookup stateFns k) = DeleteOutcome.fail →
      removeObsoleteFunctionsModel outcome (some stateFns) configKeys =
        .error .providerError) := by
  refine ⟨?_, ?_, ?_⟩
  · intro outcome stateFns configKeys hbenign
    unfold removeObsoleteFunctionsModel
    exact removeObsoleteFnGo_ok outcome stateFns _
      (fun k hk => ((mem_jsDifference _ _ _).mp hk).1) hbenign
  · intro stateFns configKeys
    exact ⟨nodup_jsDifference _ _, fun k => mem_jsDifference _ _ k⟩
  · intro outcome stateFns configKeys l1 k l2 heq hbenign hfail
    unfold removeObsoleteFunctionsModel
    simp only [defaultToAnArray, Option.getD_some]
    rw [heq]
    exact removeObsoleteFnGo_fail outcome stateFns l1 k l2
      (fun k' hk' => by
        have : k' ∈ jsDifference (stateFns.map fnProj) configKeys := by
          rw [heq]; exact hk'
        exact ((mem_jsDifference _ _ _).mp this).1)
      hbenign hfail

/-- Witness for claim C8, realizing the spec scenario: desired functions `[]`, prior
state `[{name: f1, dataSource: A, functionId: 7}]`; exactly one delete is issued, for
`f1`'s recorded id, and a `NotFoundException` answer leaves the operation successful;
with a non-NotFound failure the error propagates. -/
theorem c8_remove_obsolete_functions_witness :
    removeObsoleteFunctionsModel (fun _ => DeleteOutcome.notFound)
      (some [{ name := "f1", dataSource := "A", functionId := some 7 }]) [] =
      .ok [some 7] ∧
    removeObsoleteFunctionsModel (fun _ => DeleteOutcome.fail)
      (some [{ name := "f1", dataSource := "A", functionId := some 7 }]) [] =
      .error .providerError := by
  constructor
  · have h := c8_remove_obsolete_functions.1 (fun _ => DeleteOutcome.notFound)
      [{ name := "f1", dataSource := "A", functionId := some 7 }] []
      (by intro k hk; simp)
    exact h
  · have h := c8_remove_obsolete_functions.2.2 (fun _ => DeleteOutcome.fail)
      [{ name := "f1", dataSource := "A", functionId := some 7 }] []
      [] { name := "f1", dataSource := "A" } [] (by decide)
      (fun _ hk => absurd hk (List.not_mem_nil _)) (by decide)
    exact h

/-- Claim C5.  A numeric `expires` below 1e12 is interpreted as epoch seconds (and sent
unchanged, since scaling to milliseconds and rounding back to seconds is the identity
on integers); any other numeric value is interpreted as epoch milliseconds and sent as
rounded epoch seconds.  In particular 1700000000 and 1700000000000 both normalize to
1700000000. -/
theorem c5_api_key_expires_normalization :
    (∀ e : Int, apiKeyExpiresToSend (some e) =
      some (if e < 1000000000000 then e else msToSecRound e)) ∧
    apiKeyExpiresToSend (some 1700000000) = some 1700000000 ∧
    apiKeyExpiresToSend (some 1700000000000) = some 1700000000 := by
  refine ⟨?_, by decide, by decide⟩
  intro e
  by_cases h : e < 1000000000000
  · have hval : apiKeyExpiresToSend (some e) = some (msToSecRound (e * 1000)) := by
      simp [apiKeyExpiresToSend, apiKeyDateToParse, h]
    rw [hval, if_pos h]
    congr 1
    unfold msToSecRound
    rw [Int.fdiv_eq_ediv _ (by norm_num)]
    omega
  · simp [apiKeyExpiresToSend, apiKeyDateToParse, h]

/-- Helper: classifying a named API key never throws. -/
theorem classifyApiKey_named_ok (merged : List MergedKey) (k : ApiKeyRec)
    (h : k.name ≠ none) : ∃ p, classifyApiKey merged k = .ok p := by
  have hnone : k.name.isNone = false := by
    cases hv : k.name
    · exact absurd hv h
    · rfl
  cases hfind : merged.find? (fun m => m.name == k.name) with
  | none =>
    refine ⟨{ name := k.name, id := none, description := k.description,
              expires := k.expires, mode := .create }, ?_⟩
    simp only [classifyApiKey, hnone, Bool.false_eq_true, if_false, hfind]
  | some st =>
    by_cases hcond : ((k.description.isSome && k.description != st.description) ||
        (k.expires.isSome && k.expires != st.expires)) = true
    · refine ⟨{ name := k.name, id := some st.id,
                description := k.description.orElse (fun _ => st.description),
                expires := k.expires.orElse (fun _ => st.expires),
                mode := .update }, ?_⟩
      simp only [classifyApiKey, hnone, Bool.false_eq_true, if_false, hfind, hcond,
        if_true]
    · refine ⟨{ name := k.name, id := some st.id,
                description := k.description.orElse (fun _ => st.description),
                expires := k.expires.orElse (fun _ => st.expires),
                mode := .ignore }, ?_⟩
      simp only [classifyApiKey, hnone, Bool.false_eq_true, if_false, hfind]
      rw [if_neg hcond]

/-- Helper: a key list containing an unnamed key makes the classification pass throw a
`ConfigurationError`. -/
theorem classifyApiKeys_unnamed (merged : List MergedKey) (ks : List ApiKeyRec)
    (h : ∃ k ∈ ks, k.name = none) :
    classifyApiKeys merged ks = .error .configurationError := by
  induction ks with
  | nil => simp at h
  | cons k rest ih =>
    by_cases hk : k.name = none
    · have : k.name.isNone = true := Option.isNone_iff_eq_none.mpr hk
      simp [classifyApiKeys, classifyApiKey, this]
    · rcases h with ⟨k', hk', hname⟩
      rcases List.mem_cons.mp hk' with rfl | hk'
      · exact absurd hname hk
      · have hrest := ih ⟨k', hk', hname⟩
        rcases classifyApiKey_named_ok merged k hk with ⟨p, hp⟩
        simp [classifyApiKeys, hp, hrest]

/-- Claim C10, counterexample.  With one unnamed API key, `createOrUpdateApiKeys` does
fail with a `ConfigurationError`, but the read-only `listApiKeys` call has already been
issued when the check runs, so "before any remote call is made" is false. -/
theorem c10_counterexample :
    (createOrUpdateApiKeysModel [] 0 none c10Inputs).2 =
      .error .configurationError ∧
    (createOrUpdateApiKeysModel [] 0 none c10Inputs).1 = [KeyCall.listApiKeys] ∧
    (createOrUpdateApiKeysModel [] 0 none c10Inputs).1 ≠ [] := by
  refine ⟨rfl, rfl, by decide⟩

/-- Claim C10 (amended).  If any desired API key lacks a name, `createOrUpdateApiKeys`
fails with a `ConfigurationError` before any remote mutation: the only remote call
issued is the read-only `listApiKeys` listing, which precedes the check. -/
theorem c10_unnamed_key_fails_before_mutation (remote : List RemoteKey) (nid : Nat)
    (stateKeys : Option (List KeyState)) (inputKeys : Option (List ApiKeyInput))
    (h : ∃ k ∈ formatInputApiKeys inputKeys, k.name = none) :
    (createOrUpdateApiKeysModel remote nid stateKeys inputKeys).2 =
      .error .configurationError ∧
    (createOrUpdateApiKeysModel remote nid stateKeys inputKeys).1 =
      [KeyCall.listApiKeys] ∧
    ((createOrUpdateApiKeysModel remote nid stateKeys inputKeys).1.filter
      isKeyMutation) = [] := by
  have hcl := classifyApiKeys_unnamed (mergedStateKeys remote stateKeys) _ h
  refine ⟨?_, ?_, ?_⟩ <;>
    simp [createOrUpdateApiKeysModel, hcl, isKeyMutation, List.filter]

/-- Witness for the amended claim C10 at a concrete input: two keys, the second
unnamed. -/
theorem c10_unnamed_key_fails_before_mutation_witness :
    (createOrUpdateApiKeysModel [] 5 none
      (some [ApiKeyInput.str "named", ApiKeyInput.obj { expires := some 1700000000 }])).2 =
      .error .configurationError ∧
    (createOrUpdateApiKeysModel [] 5 none
      (some [ApiKeyInput.str "named", ApiKeyInput.obj { expires := some 1700000000 }])).1 =
      [KeyCall.listApiKeys] ∧
    ((createOrUpdateApiKeysModel [] 5 none
      (some [ApiKeyInput.str "named", ApiKeyInput.obj { expires := some 1700000000 }])).1.filter
      isKeyMutation) = [] :=
  c10_unnamed_key_fails_before_mutation [] 5 none
    (some [ApiKeyInput.str "named", ApiKeyInput.obj { expires := some 1700000000 }])
    ⟨{ expires := some 1700000000 }, by decide, rfl⟩

/-! ## Helper lemmas for the second-run idempotence analysis (claim C2) -/

/-- Helper: a map whose function is constant on the list's members is a `replicate`. -/
theorem map_eq_replicate_of_mem (l : List α) (f : α → β) (b : β)
    (h : ∀ a ∈ l, f a = b) : l.map f = List.replicate l.length b := by
  induction l with
  | nil => rfl
  | cons x xs ih =>
    simp only [List.map_cons, List.length_cons, List.replicate_succ]
    rw [h x (List.mem_cons_self _ _), ih (fun a ha => h a (List.mem_cons_of_mem _ ha))]

/-- Helper: stamping an absent arn onto one data source is the identity. -/
theorem stampDataSources_none_elem (d : DSSpec) :
    (if d.serviceRoleArn.isNone then { d with serviceRoleArn := none } else d) = d := by
  cases d with
  | mk n t arn c =>
    cases arn with
    | none => rfl
    | some a => rfl

/-- Helper: stamping an undefined service-role arn changes nothing (the orchestrator
reads `serviceRole.arn`, a field `createRole`'s result does not carry). -/
theorem stampDataSources_none (l : List DSSpec) : stampDataSources none l = l := by
  unfold stampDataSources
  rw [List.map_congr_left (fun d _ => stampDataSources_none_elem d)]
  exact List.map_id _

/-- Helper: `Nodup` of the key projections gives a false duplicate test. -/
theorem hasDupBy_eq_false [DecidableEq κ] (key : α → κ) (l : List α)
    (h : (l.map key).Nodup) : hasDupBy key l = false := by
  cases hv : hasDupBy key l
  · rfl
  · exact absurd h ((hasDupBy_iff key l).mp hv)

/-- Helper: no obsolete data sources means the removal pass keeps the remote list. -/
theorem removeObsoleteDataSourcesModel_of_nil (stateDS : Option (List DSStateEntry))
    (configProj : List DSStateEntry) (remote : List RemoteDS)
    (h : jsDifference (defaultToAnArray stateDS) configProj = []) :
    removeObsoleteDataSourcesModel stateDS configProj remote = remote := by
  unfold removeObsoleteDataSourcesModel
  rw [h]
  refine List.filter_eq_self.mpr ?_
  intro a _
  simp

/-- Helper: no obsolete resolvers means the removal pass keeps the remote list. -/
theorem removeObsoleteResolversModel_of_nil (stateRes : Option (List ResStateEntry))
    (configProj : List ResStateEntry) (remote : List ResolvedResolver)
    (h : jsDifference (defaultToAnArray stateRes) configProj = []) :
    removeObsoleteResolversModel stateRes configProj remote = remote := by
  unfold removeObsoleteResolversModel
  rw [h]
  refine List.filter_eq_self.mpr ?_
  intro a _
  simp

/-- Helper: no obsolete functions means the removal pass keeps the remote list. -/
theorem removeObsoleteFunctionsRun_of_nil (stateFns : Option (List FnStateEntry))
    (configKeys : List FnKeyProj) (remote : List RemoteFn)
    (h : jsDifference ((defaultToAnArray stateFns).map fnProj) configKeys = []) :
    removeObsoleteFunctionsRun stateFns configKeys remote = remote := by
  unfold removeObsoleteFunctionsRun
  rw [h]
  refine List.filter_eq_self.mpr ?_
  intro a _
  simp [List.contains]

/-- Helper: no obsolete API keys means the removal pass keeps the remote list and
issues no delete. -/
theorem removeObsoleteApiKeysModel_of_nil (stateKeys : Option (List KeyState))
    (configNames : List (Option String)) (remote : List RemoteKey)
    (h : jsDifference ((defaultToAnArray stateKeys).map (fun st => st.name))
      configNames = []) :
    removeObsoleteApiKeysModel stateKeys configNames remote = (remote, []) := by
  unfold removeObsoleteApiKeysModel
  rw [h]
  rfl

/-- Helper: executing an all-create data-source plan appends the created resources. -/
theorem execDS_create_all (l : List DSSpec) :
    ∀ R : List RemoteDS,
      execDS R (l.map (fun d => PlannedDS.mk d Mode.create)) = R ++ l.map remoteOfDS := by
  induction l with
  | nil => intro R; simp [execDS]
  | cons d rest ih =>
    intro R
    simp only [List.map_cons, execDS]
    rw [ih]
    simp

/-- Helper: executing an all-ignore data-source plan changes nothing. -/
theorem execDS_ignore_all (l : List DSSpec) :
    ∀ R : List RemoteDS, execDS R (l.map (fun d => PlannedDS.mk d Mode.ignore)) = R := by
  induction l with
  | nil => intro R; rfl
  | cons d rest ih => intro R; simp only [List.map_cons, execDS]; exact ih R

/-- Helper: a first run against an empty remote classifies every data source `create`
and stores its fields. -/
theorem ds_run1 (l : List DSSpec) (hnd : (l.map (fun d => d.name)).Nodup) :
    createOrUpdateDataSourcesModel [] l =
      .ok (l.map remoteOfDS, l, List.replicate l.length Mode.create) := by
  unfold createOrUpdateDataSourcesModel checkForDuplicates
  rw [hasDupBy_eq_false _ _ hnd]
  simp only [Bool.false_eq_true, if_false]
  have hplan : l.map (fun d => PlannedDS.mk d (classifyDS [] d)) =
      l.map (fun d => PlannedDS.mk d Mode.create) := rfl
  rw [hplan, execDS_create_all]
  simp only [List.nil_append, List.map_map]
  have hmodes := map_eq_replicate_of_mem l
    ((fun p : PlannedDS => p.mode) ∘ fun d => PlannedDS.mk d Mode.create)
    Mode.create (fun a _ => rfl)
  rw [hmodes]

/-- Helper: in the image of the created data sources, lookup by name finds each
source's own image. -/
theorem find_remoteOfDS (l : List DSSpec) (hnd : (l.map (fun d => d.name)).Nodup) :
    ∀ d ∈ l, (l.map remoteOfDS).find? (fun r => r.name == d.name) =
      some (remoteOfDS d) := by
  induction l with
  | nil => intro d hd; simp at hd
  | cons x xs ih =>
    intro d hd
    rcases List.mem_cons.mp hd with rfl | hd
    · simp [remoteOfDS]
    · have hne : x.name ≠ d.name := by
        intro hcon
        have : x.name ∈ xs.map (fun d => d.name) := by
          rw [hcon]; exact List.mem_map_of_mem _ hd
        exact (List.nodup_cons.mp (by simpa using hnd)).1 this
      rw [List.map_cons, List.find?_cons_of_neg _ (by simp [remoteOfDS, hne])]
      exact ih (List.nodup_cons.mp (by simpa using hnd)).2 d hd

/-- Helper: a second run against the created data sources classifies everything
`ignore` and changes nothing. -/
theorem ds_run2 (l : List DSSpec) (hnd : (l.map (fun d => d.name)).Nodup) :
    createOrUpdateDataSourcesModel (l.map remoteOfDS) l =
      .ok (l.map remoteOfDS, l, List.replicate l.length Mode.ignore) := by
  have hcl : ∀ d ∈ l, classifyDS (l.map remoteOfDS) d = Mode.ignore := by
    intro d hd
    unfold classifyDS
    rw [find_remoteOfDS l hnd d hd]
    simp [remoteOfDS]
  unfold createOrUpdateDataSourcesModel checkForDuplicates
  rw [hasDupBy_eq_false _ _ hnd]
  simp only [Bool.false_eq_true, if_false]
  rw [List.map_congr_left (fun d hd => by rw [hcl d hd] :
    ∀ d ∈ l, PlannedDS.mk d (classifyDS (l.map remoteOfDS) d) = PlannedDS.mk d Mode.ignore)]
  rw [execDS_ignore_all]
  simp only [List.map_map]
  have hmodes := map_eq_replicate_of_mem l
    ((fun p : PlannedDS => p.mode) ∘ fun d => PlannedDS.mk d Mode.ignore)
    Mode.ignore (fun a _ => rfl)
  rw [hmodes]

/-- Helper: executing an all-create resolver plan appends the resolved resolvers. -/
theorem execResolvers_create_all (l : List ResolvedResolver) :
    ∀ R : List ResolvedResolver,
      execResolvers R (l.map (fun r => PlannedResolver.mk r Mode.create)) = R ++ l := by
  induction l with
  | nil => intro R; simp [execResolvers]
  | cons r rest ih =>
    intro R
    simp only [List.map_cons, execResolvers]
    rw [ih]
    simp

/-- Helper: executing an all-ignore resolver plan changes nothing. -/
theorem execResolvers_ignore_all (l : List ResolvedResolver) :
    ∀ R : List ResolvedResolver,
      execResolvers R (l.map (fun r => PlannedResolver.mk r Mode.ignore)) = R := by
  induction l with
  | nil => intro R; rfl
  | cons r rest ih => intro R; simp only [List.map_cons, execResolvers]; exact ih R

/-- Helper: a first run against an empty remote classifies every resolver `create`. -/
theorem res_run1 (fs : String → Option String) (src : String) (l : List ResolverSpec)
    (hnd : (l.map (fun r => (r.type, r.field))).Nodup) :
    createOrUpdateResolversModel fs src [] l =
      .ok (l.map (resolveResolver fs src), l.map (resolveResolver fs src),
        List.replicate l.length Mode.create) := by
  unfold createOrUpdateResolversModel checkForDuplicates
  rw [hasDupBy_eq_false _ _ hnd]
  simp only [Bool.false_eq_true, if_false]
  have hplan : (l.map (resolveResolver fs src)).map
      (fun r => PlannedResolver.mk r (classifyResolver [] r)) =
      (l.map (resolveResolver fs src)).map (fun r => PlannedResolver.mk r Mode.create) := rfl
  rw [hplan, execResolvers_create_all]
  simp only [List.nil_append, List.map_map, List.length_map]
  have hmodes := map_eq_replicate_of_mem l
    ((fun p : PlannedResolver => p.mode) ∘ (fun r => PlannedResolver.mk r Mode.create) ∘
      resolveResolver fs src)
    Mode.create (fun a _ => rfl)
  rw [hmodes]

/-- Helper: lookup by `(type, field)` in a resolver list with distinct keys finds each
resolver itself. -/
theorem find_resolver_self (l : List ResolvedResolver)
    (hnd : (l.map (fun r => (r.type, r.field))).Nodup) :
    ∀ r ∈ l, l.find? (fun q => q.type == r.type && q.field == r.field) = some r := by
  induction l with
  | nil => intro r hr; simp at hr
  | cons x xs ih =>
    intro r hr
    rcases List.mem_cons.mp hr with rfl | hr
    · simp
    · have hnd' := hnd
      rw [List.map_cons, List.nodup_cons] at hnd'
      have hne : (x.type, x.field) ≠ (r.type, r.field) := by
        intro hcon
        exact hnd'.1 (by rw [hcon]; exact List.mem_map_of_mem _ hr)
      have hpred : (x.type == r.type && x.field == r.field) = false := by
        cases hvv : (x.type == r.type && x.field == r.field)
        · rfl
        · have hx := (Bool.and_eq_true _ _).mp hvv
          exact absurd (by rw [beq_iff_eq.mp hx.1, beq_iff_eq.mp hx.2]) hne
      rw [List.find?_cons_of_neg _ (by simp [hpred])]
      exact ih hnd'.2 r hr

/-- Helper: a second run against the created resolvers classifies everything
`ignore`. -/
theorem res_run2 (fs : String → Option String) (src : String) (l : List ResolverSpec)
    (hnd : (l.map (fun r => (r.type, r.field))).Nodup) :
    createOrUpdateResolversModel fs src (l.map (resolveResolver fs src)) l =
      .ok (l.map (resolveResolver fs src), l.map (resolveResolver fs src),
        List.replicate l.length Mode.ignore) := by
  have hndres : ((l.map (resolveResolver fs src)).map (fun r => (r.type, r.field))).Nodup := by
    rw [List.map_map]
    have : ((fun r : ResolvedResolver => (r.type, r.field)) ∘ resolveResolver fs src) =
        fun r : ResolverSpec => (r.type, r.field) := rfl
    rw [this]
    exact hnd
  have hcl : ∀ r ∈ l.map (resolveResolver fs src),
      classifyResolver (l.map (resolveResolver fs src)) r = Mode.ignore := by
    intro r hr
    unfold classifyResolver
    rw [find_resolver_self _ hndres r hr]
    simp
  unfold createOrUpdateResolversModel checkForDuplicates
  rw [hasDupBy_eq_false _ _ hnd]
  simp only [Bool.false_eq_true, if_false]
  rw [List.map_congr_left (fun r hr => by rw [hcl r hr] :
    ∀ r ∈ l.map (resolveResolver fs src),
      PlannedResolver.mk r (classifyResolver (l.map (resolveResolver fs src)) r) =
        PlannedResolver.mk r Mode.ignore)]
  rw [execResolvers_ignore_all]
  simp only [List.map_map, List.length_map]
  have hmodes := map_eq_replicate_of_mem l
    ((fun p : PlannedResolver => p.mode) ∘ (fun r => PlannedResolver.mk r Mode.ignore) ∘
      resolveResolver fs src)
    Mode.ignore (fun a _ => rfl)
  rw [hmodes]

/-- Helper: executing an all-create function plan appends the created functions under
sequential ids and captures each id on the returned item. -/
theorem execFns_create_all (rs : List ResolvedFn) :
    ∀ (R : List RemoteFn) (n0 : Nat),
      execFns R n0 (rs.map (fun r => PlannedFn.mk r Mode.create none)) =
        ⟨R ++ createdFnsFrom n0 rs, n0 + rs.length, createdPlannedFrom n0 rs,
          rs.map (fun r => FnCall.createFunction r.name)⟩ := by
  induction rs with
  | nil => intro R n0; simp [execFns, createdFnsFrom, createdPlannedFrom]
  | cons r rest ih =>
    intro R n0
    simp only [List.map_cons, execFns]
    rw [ih]
    simp only [createdFnsFrom, createdPlannedFrom, List.map_cons, List.append_assoc,
      List.singleton_append, List.length_cons]
    congr 1
    omega

/-- Helper: executing an all-ignore function plan calls nothing and returns the plan. -/
theorem execFns_ignore_all (rs : List ResolvedFn) :
    ∀ (R : List RemoteFn) (n n0 : Nat),
      execFns R n (ignoredPlannedFrom n0 rs) = ⟨R, n, ignoredPlannedFrom n0 rs, []⟩ := by
  induction rs with
  | nil => intro R n n0; rfl
  | cons r rest ih =>
    intro R n n0
    simp only [ignoredPlannedFrom, execFns]
    rw [ih]

/-- Helper: a remote function not matching the desired item's natural key does not
affect its classification. -/
theorem classifyFn_cons_ne (d : RemoteFn) (L : List RemoteFn) (r : ResolvedFn)
    (h : (d.name == r.name && d.dataSourceName == r.dataSourceName) = false) :
    classifyFn (d :: L) r = classifyFn L r := by
  unfold classifyFn findDeployedFn
  rw [List.find?_cons_of_neg _ (by simp [h])]

/-- Helper: a desired function re-resolved in a second run matches its own created
image at the head of the remote list and is classified `ignore`. -/
theorem classifyFn_created_head (fs : String → Option String) (src : String) (f : FnSpec)
    (L : List RemoteFn) (n0 : Nat) :
    classifyFn
      (remoteOfParams (PlannedFn.mk (resolveFn fs src f) Mode.create none) n0 :: L)
      (resolveFn fs src f) =
      PlannedFn.mk (resolveFn fs src f) Mode.ignore (some n0) := by
  unfold classifyFn findDeployedFn
  rw [List.find?_cons_of_pos _ (by simp [remoteOfParams, resolveFn])]
  simp [equalsByKeysFn, remoteOfParams, resolveFn]

/-- Helper: against the remote image its own first run created, every desired function
is classified `ignore` with its captured id. -/
theorem run2_fns_planned (fs : String → Option String) (src : String) :
    ∀ (fns : List FnSpec) (n0 : Nat), (fns.map fnKey).Nodup →
      (fns.map (resolveFn fs src)).map
        (classifyFn (createdFnsFrom n0 (fns.map (resolveFn fs src)))) =
      ignoredPlannedFrom n0 (fns.map (resolveFn fs src)) := by
  intro fns
  induction fns with
  | nil => intro n0 _; rfl
  | cons f rest ih =>
    intro n0 hnd
    rw [List.map_cons, List.nodup_cons] at hnd
    simp only [List.map_cons, createdFnsFrom, ignoredPlannedFrom]
    congr 1
    · exact classifyFn_created_head fs src f _ n0
    · have hskip : ∀ r ∈ rest.map (resolveFn fs src),
          classifyFn
            (remoteOfParams (PlannedFn.mk (resolveFn fs src f) Mode.create none) n0 ::
              createdFnsFrom (n0 + 1) (rest.map (resolveFn fs src))) r =
          classifyFn (createdFnsFrom (n0 + 1) (rest.map (resolveFn fs src))) r := by
        intro r hr
        rcases List.mem_map.mp hr with ⟨g, hg, rfl⟩
        have hne : fnKey f ≠ fnKey g := by
          intro hcon
          exact hnd.1 (by rw [hcon]; exact List.mem_map_of_mem _ hg)
        apply classifyFn_cons_ne
        simp only [remoteOfParams, resolveFn]
        cases hv1 : (f.name == g.name)
        · simp
        · cases hv2 : (f.dataSource == g.dataSource)
          · simp [hv2]
          · exact absurd (show fnKey f = fnKey g by
              unfold fnKey
              rw [beq_iff_eq.mp hv1, beq_iff_eq.mp hv2]) hne
      rw [List.map_congr_left hskip]
      exact ih (n0 + 1) hnd.2

/-- Helper: the modes of a second-run function plan are all `ignore`. -/
theorem ignoredPlannedFrom_modes (rs : List ResolvedFn) :
    ∀ n0, (ignoredPlannedFrom n0 rs).map (fun p => p.mode) =
      List.replicate rs.length Mode.ignore := by
  induction rs with
  | nil => intro n0; rfl
  | cons r rest ih =>
    intro n0
    simp [ignoredPlannedFrom, List.replicate_succ, ih (n0 + 1)]

/-- Helper: the persisted function entries of the first and second runs coincide. -/
theorem created_ignored_state_eq (rs : List ResolvedFn) :
    ∀ n0, (createdPlannedFrom n0 rs).map plannedFnState =
      (ignoredPlannedFrom n0 rs).map plannedFnState := by
  induction rs with
  | nil => intro n0; rfl
  | cons r rest ih =>
    intro n0
    simp [createdPlannedFrom, ignoredPlannedFrom, plannedFnState, ih (n0 + 1)]

/-- Helper: the natural-key projection of the first run's persisted function entries. -/
theorem created_state_fnProj (rs : List ResolvedFn) :
    ∀ n0, ((createdPlannedFrom n0 rs).map plannedFnState).map fnProj =
      rs.map resolvedFnProj := by
  induction rs with
  | nil => intro n0; rfl
  | cons r rest ih =>
    intro n0
    simp [createdPlannedFrom, plannedFnState, fnProj, resolvedFnProj, ih (n0 + 1)]

/-- Helper: the natural-key projection of the second run's returned function objects. -/
theorem ignored_fnProj (rs : List ResolvedFn) :
    ∀ n0, (ignoredPlannedFrom n0 rs).map plannedFnProj = rs.map resolvedFnProj := by
  induction rs with
  | nil => intro n0; rfl
  | cons r rest ih =>
    intro n0
    simp [ignoredPlannedFrom, plannedFnProj, resolvedFnProj, ih (n0 + 1)]

/-- Helper: the function reconciler's first run against an empty remote creates
everything with sequential ids. -/
theorem fns_run1 (fs : String → Option String) (src : String) (fns : List FnSpec)
    (hnd : (fns.map fnKey).Nodup) (n0 : Nat) :
    (createOrUpdateFunctionsModel fs src (some fns) [] n0).2 =
      .ok ⟨createdFnsFrom n0 (fns.map (resolveFn fs src)), n0 + fns.length,
        createdPlannedFrom n0 (fns.map (resolveFn fs src)),
        (fns.map (resolveFn fs src)).map (fun r => FnCall.createFunction r.name)⟩ := by
  unfold createOrUpdateFunctionsModel
  rw [show checkForDuplicates fnKey (defaultToAnArray (some fns)) = Except.ok () from by
    unfold checkForDuplicates defaultToAnArray
    simp [hasDupBy_eq_false fnKey fns hnd]]
  have hplan : (fns.map (resolveFn fs src)).map (classifyFn []) =
      (fns.map (resolveFn fs src)).map (fun r => PlannedFn.mk r Mode.create none) := rfl
  simp only [defaultToAnArray, Option.getD_some, hplan, execFns_create_all]
  simp [List.length_map]

/-- Helper: the function reconciler's second run against the remote image it created
issues no mutation and classifies everything `ignore`. -/
theorem fns_run2 (fs : String → Option String) (src : String) (fns : List FnSpec)
    (hnd : (fns.map fnKey).Nodup) (n0 m : Nat) :
    (createOrUpdateFunctionsModel fs src (some fns)
        (createdFnsFrom n0 (fns.map (resolveFn fs src))) m).2 =
      .ok ⟨createdFnsFrom n0 (fns.map (resolveFn fs src)), m,
        ignoredPlannedFrom n0 (fns.map (resolveFn fs src)), []⟩ := by
  unfold createOrUpdateFunctionsModel
  rw [show checkForDuplicates fnKey (defaultToAnArray (some fns)) = Except.ok () from by
    unfold checkForDuplicates defaultToAnArray
    simp [hasDupBy_eq_false fnKey fns hnd]]
  simp only [defaultToAnArray, Option.getD_some]
  rw [run2_fns_planned fs src fns n0 hnd, execFns_ignore_all]

/-- Helper: an epoch-seconds expiry below 1e12 is sent unchanged. -/
theorem apiKeyExpiresToSend_of_lt (e : Int) (h : e < 1000000000000) :
    apiKeyExpiresToSend (some e) = some e := by
  have hval : apiKeyExpiresToSend (some e) = some (msToSecRound (e * 1000)) := by
    simp [apiKeyExpiresToSend, apiKeyDateToParse, h]
  rw [hval]
  congr 1
  unfold msToSecRound
  rw [Int.fdiv_eq_ediv _ (by norm_num)]
  omega

/-- Helper: with no prior keys, every named desired key is classified `create`. -/
theorem classifyApiKeys_all_new (ks : List ApiKeyRec)
    (hnamed : ∀ k ∈ ks, k.name ≠ none) :
    classifyApiKeys [] ks = .ok (ks.map createPlannedOfKey) := by
  induction ks with
  | nil => rfl
  | cons k rest ih =>
    have hk := hnamed k (List.mem_cons_self _ _)
    have hnone : k.name.isNone = false := by
      cases hv : k.name
      · exact absurd hv hk
      · rfl
    have hhead : classifyApiKey [] k = .ok (createPlannedOfKey k) := by
      simp only [classifyApiKey, hnone, Bool.false_eq_true, if_false, List.find?_nil]
      rfl
    simp only [classifyApiKeys, hhead,
      ih (fun k' hk' => hnamed k' (List.mem_cons_of_mem _ hk')), List.map_cons]

/-- Helper: executing an all-create API key plan stores the declared description and
the normalized expiry under sequential ids. -/
theorem execApiKeys_create_all (ks : List ApiKeyRec) :
    ∀ (R : List RemoteKey) (n0 : Nat),
      execApiKeys R n0 (ks.map createPlannedOfKey) =
        ⟨R ++ createdKeysFrom n0 ks, n0 + ks.length, keyStatesFrom n0 ks,
          ks.map (fun k => KeyCall.createApiKey (apiKeyExpiresToSend k.expires))⟩ := by
  induction ks with
  | nil => intro R n0; simp [execApiKeys, createdKeysFrom, keyStatesFrom]
  | cons k rest ih =>
    intro R n0
    simp only [List.map_cons, execApiKeys, createPlannedOfKey]
    rw [ih]
    simp only [createdKeysFrom, keyStatesFrom, List.map_cons, List.append_assoc,
      List.singleton_append, List.length_cons]
    congr 1
    omega

/-- Helper: executing an all-ignore API key plan calls nothing and returns the
recorded name/id pairs. -/
theorem execApiKeys_ignore_all (ks : List ApiKeyRec) :
    ∀ (R : List RemoteKey) (n n0 : Nat),
      execApiKeys R n (ignoredKeysFrom n0 ks) = ⟨R, n, keyStatesFrom n0 ks, []⟩ := by
  induction ks with
  | nil => intro R n n0; rfl
  | cons k rest ih =>
    intro R n n0
    simp only [ignoredKeysFrom, execApiKeys]
    rw [ih]
    simp [keyStatesFrom]

/-- Helper: a deployed key whose id matches no prior entry does not affect the
prior-state merge. -/
theorem mergedGo_cons_skip (c : RemoteKey) (C : List RemoteKey) :
    ∀ S : List KeyState, (∀ st ∈ S, st.id ≠ some c.id) →
      mergedGo (c :: C) S = mergedGo C S := by
  intro S
  induction S with
  | nil => intro _; rfl
  | cons s S' ih =>
    intro h
    have hs := h s (List.mem_cons_self _ _)
    have hpred : (some c.id == s.id) = false := by
      cases hv : s.id with
      | none => rfl
      | some i =>
        rw [hv] at hs
        rw [beq_eq_false_iff_ne]
        intro hcon
        injection hcon with h
        exact hs (congrArg some h.symm)
    simp only [mergedGo]
    rw [List.find?_cons_of_neg _ (by simp [hpred])]
    rw [ih (fun st hst => h st (List.mem_cons_of_mem _ hst))]

/-- Helper: persisted key entries carry ids at or above their base index. -/
theorem keyStatesFrom_id_ge (ks : List ApiKeyRec) :
    ∀ (m : Nat) (st : KeyState), st ∈ keyStatesFrom m ks →
      ∃ i, st.id = some i ∧ m ≤ i := by
  induction ks with
  | nil => intro m st h; simp [keyStatesFrom] at h
  | cons k rest ih =>
    intro m st h
    rcases List.mem_cons.mp h with rfl | h
    · exact ⟨m, rfl, Nat.le_refl m⟩
    · rcases ih (m + 1) st h with ⟨i, hi, hle⟩
      exact ⟨i, hi, Nat.le_of_succ_le hle⟩

/-- Helper: a second run's prior-state merge recovers each key's name, id, and the
stored description and normalized expiry. -/
theorem merged_run2 (ks : List ApiKeyRec) :
    ∀ n0, mergedGo (createdKeysFrom n0 ks) (keyStatesFrom n0 ks) = mergedFrom n0 ks := by
  induction ks with
  | nil => intro n0; rfl
  | cons k rest ih =>
    intro n0
    simp only [createdKeysFrom, keyStatesFrom, mergedGo, mergedFrom]
    rw [List.find?_cons_of_pos _ (by simp)]
    rw [mergedGo_cons_skip _ _ _ (fun st hst => by
      rcases keyStatesFrom_id_ge rest (n0 + 1) st hst with ⟨i, hi, hle⟩
      rw [hi]
      intro hcon
      simp at hcon
      omega)]
    rw [ih (n0 + 1)]

/-- Helper: a merged key of a different name does not affect a key's
classification. -/
theorem classifyApiKey_cons_ne (m : MergedKey) (M : List MergedKey) (k : ApiKeyRec)
    (h : (m.name == k.name) = false) :
    classifyApiKey (m :: M) k = classifyApiKey M k := by
  unfold classifyApiKey
  rw [List.find?_cons_of_neg _ (by simp [h])]

/-- Helper: a merged key matching none of the desired names does not affect the
classification pass. -/
theorem classifyApiKeys_cons_skip (m : MergedKey) (M : List MergedKey) :
    ∀ ks : List ApiKeyRec, (∀ k ∈ ks, (m.name == k.name) = false) →
      classifyApiKeys (m :: M) ks = classifyApiKeys M ks := by
  intro ks
  induction ks with
  | nil => intro _; rfl
  | cons k rest ih =>
    intro h
    simp only [classifyApiKeys]
    rw [classifyApiKey_cons_ne m M k (h k (List.mem_cons_self _ _)),
      ih (fun k' hk' => h k' (List.mem_cons_of_mem _ hk'))]

/-- Helper: against the merged image of its own first run, every named desired key with
an epoch-seconds expiry is classified `ignore`. -/
theorem classifyApiKeys_run2 (ks : List ApiKeyRec) :
    ∀ n0, (∀ k ∈ ks, k.name ≠ none) → ((ks.map (fun k => k.name)).Nodup) →
      (∀ k ∈ ks, ∀ e : Int, k.expires = some e → e < 1000000000000) →
      classifyApiKeys (mergedFrom n0 ks) ks = .ok (ignoredKeysFrom n0 ks) := by
  induction ks with
  | nil => intro n0 _ _ _; rfl
  | cons k rest ih =>
    intro n0 hnamed hnd hexp
    rw [List.map_cons, List.nodup_cons] at hnd
    have hk := hnamed k (List.mem_cons_self _ _)
    have hnone : k.name.isNone = false := by
      cases hv : k.name
      · exact absurd hv hk
      · rfl
    have hexpk : apiKeyExpiresToSend k.expires = k.expires := by
      cases hv : k.expires with
      | none => rfl
      | some e => exact apiKeyExpiresToSend_of_lt e (hexp k (List.mem_cons_self _ _) e hv)
    have hmergedcons : mergedFrom n0 (k :: rest) =
        { name := k.name, id := n0, description := k.description,
          expires := apiKeyExpiresToSend k.expires } :: mergedFrom (n0 + 1) rest := rfl
    have hfind : (mergedFrom n0 (k :: rest)).find? (fun m => m.name == k.name) =
        some { name := k.name, id := n0, description := k.description,
               expires := apiKeyExpiresToSend k.expires } := by
      rw [hmergedcons]
      exact List.find?_cons_of_pos _ (by simp)
    have hhead : classifyApiKey (mergedFrom n0 (k :: rest)) k =
        .ok { name := k.name, id := some n0, description := k.description,
              expires := k.expires, mode := Mode.ignore } := by
      simp only [classifyApiKey, hnone, Bool.false_eq_true, if_false, hfind, hexpk,
        bne_self_eq_false, Bool.and_false, Bool.or_self]
      cases k.description <;> cases k.expires <;> rfl
    have hskip : classifyApiKeys (mergedFrom n0 (k :: rest)) rest =
        classifyApiKeys (mergedFrom (n0 + 1) rest) rest := by
      rw [hmergedcons]
      apply classifyApiKeys_cons_skip
      intro k' hk'
      have hne : k.name ≠ k'.name := by
        intro hcon
        exact hnd.1 (by rw [hcon]; exact List.mem_map_of_mem _ hk')
      cases hv : (k.name == k'.name)
      · rfl
      · exact absurd (beq_iff_eq.mp hv) hne
    simp only [classifyApiKeys, hhead, hskip,
      ih (n0 + 1) (fun k' hk' => hnamed k' (List.mem_cons_of_mem _ hk')) hnd.2
        (fun k' hk' e he => hexp k' (List.mem_cons_of_mem _ hk') e he)]
    rfl

/-- Helper: the modes of a second-run key plan are all `ignore`. -/
theorem ignoredKeysFrom_modes (ks : List ApiKeyRec) :
    ∀ n0, (ignoredKeysFrom n0 ks).map (fun p => p.mode) =
      List.replicate ks.length Mode.ignore := by
  induction ks with
  | nil => intro n0; rfl
  | cons k rest ih =>
    intro n0
    simp [ignoredKeysFrom, List.replicate_succ, ih (n0 + 1)]

/-- Helper: the persisted key entries' names are the desired names. -/
theorem keyStatesFrom_names (ks : List ApiKeyRec) :
    ∀ n0, (keyStatesFrom n0 ks).map (fun st => st.name) = ks.map (fun k => k.name) := by
  induction ks with
  | nil => intro n0; rfl
  | cons k rest ih =>
    intro n0
    simp [keyStatesFrom, ih (n0 + 1)]

/-- Helper: the API key reconciler's first run against an empty remote and no prior
state creates every named key. -/
theorem keys_run1 (inputKeys : Option (List ApiKeyInput)) (n0 : Nat)
    (hnamed : ∀ k ∈ formatInputApiKeys inputKeys, k.name ≠ none) :
    (createOrUpdateApiKeysModel [] n0 none inputKeys).2 =
      .ok (⟨createdKeysFrom n0 (formatInputApiKeys inputKeys),
          n0 + (formatInputApiKeys inputKeys).length,
          keyStatesFrom n0 (formatInputApiKeys inputKeys),
          (formatInputApiKeys inputKeys).map
            (fun k => KeyCall.createApiKey (apiKeyExpiresToSend k.expires))⟩,
        List.replicate (formatInputApiKeys inputKeys).length Mode.create) := by
  have hcl : classifyApiKeys (mergedStateKeys [] none) (formatInputApiKeys inputKeys) =
      .ok ((formatInputApiKeys inputKeys).map createPlannedOfKey) :=
    classifyApiKeys_all_new _ hnamed
  unfold createOrUpdateApiKeysModel
  simp only [hcl, execApiKeys_create_all, List.map_map]
  have hmodes := map_eq_replicate_of_mem (formatInputApiKeys inputKeys)
    ((fun p : PlannedKey => p.mode) ∘ createPlannedOfKey) Mode.create (fun a _ => rfl)
  rw [hmodes, List.nil_append]

/-- Helper: the API key reconciler's second run against its own first-run image
classifies everything `ignore`, mutates nothing, and persists the same entries. -/
theorem keys_run2 (inputKeys : Option (List ApiKeyInput)) (n0 m : Nat)
    (hnamed : ∀ k ∈ formatInputApiKeys inputKeys, k.name ≠ none)
    (hnd : ((formatInputApiKeys inputKeys).map (fun k => k.name)).Nodup)
    (hexp : ∀ k ∈ formatInputApiKeys inputKeys, ∀ e : Int, k.expires = some e →
      e < 1000000000000) :
    (createOrUpdateApiKeysModel (createdKeysFrom n0 (formatInputApiKeys inputKeys)) m
        (some (keyStatesFrom n0 (formatInputApiKeys inputKeys))) inputKeys).2 =
      .ok (⟨createdKeysFrom n0 (formatInputApiKeys inputKeys), m,
          keyStatesFrom n0 (formatInputApiKeys inputKeys), []⟩,
        List.replicate (formatInputApiKeys inputKeys).length Mode.ignore) := by
  have hmg : mergedStateKeys (createdKeysFrom n0 (formatInputApiKeys inputKeys))
      (some (keyStatesFrom n0 (formatInputApiKeys inputKeys))) =
      mergedFrom n0 (formatInputApiKeys inputKeys) := by
    unfold mergedStateKeys defaultToAnArray
    simp [merged_run2]
  have hcl : classifyApiKeys
      (mergedStateKeys (createdKeysFrom n0 (formatInputApiKeys inputKeys))
        (some (keyStatesFrom n0 (formatInputApiKeys inputKeys))))
      (formatInputApiKeys inputKeys) =
      .ok (ignoredKeysFrom n0 (formatInputApiKeys inputKeys)) := by
    rw [hmg]
    exact classifyApiKeys_run2 _ n0 hnamed hnd hexp
  unfold createOrUpdateApiKeysModel
  simp only [hcl, execApiKeys_ignore_all, ignoredKeysFrom_modes]

/-- Helper: the schema step cannot act when no schema is declared and the caller is
not the API creator. -/
theorem schemaModel_guard_skip (fs : String → Option String) (cks : String → String)
    (cfg : SchemaConfig) (st : Option String) (σ : Nat → String) (fuel : Nat)
    (hg : (cfg.schema.isNone && !cfg.isApiCreator) = true) :
    createSchemaModel fs cks cfg st σ fuel = some (none, []) := by
  unfold createSchemaModel
  simp [hg]

/-- Helper: with the prior checksum equal to the resolved schema's checksum, the schema
step calls nothing and returns the checksum. -/
theorem schemaModel_prior_eq (fs : String → Option String) (cks : String → String)
    (cfg : SchemaConfig) (σ : Nat → String) (fuel : Nat)
    (hg : (cfg.schema.isNone && !cfg.isApiCreator) = false) :
    createSchemaModel fs cks cfg (some (cks (resolvedSchemaText fs cfg))) σ fuel =
      some (some (cks (resolvedSchemaText fs cfg)), []) := by
  unfold createSchemaModel
  simp [hg]

/-- Helper: starting from no recorded checksum and an immediately-successful status
stream, the schema step settles on a checksum that a second run recognizes and skips. -/
theorem schema_twice (fs : String → Option String) (cks : String → String)
    (cfg : SchemaConfig) :
    ∃ (c₁ : Option String) (calls₁ : List SchemaCall),
      createSchemaModel fs cks cfg none (fun _ => "SUCCESS") 1 = some (c₁, calls₁) ∧
      createSchemaModel fs cks cfg c₁ (fun _ => "SUCCESS") 1 = some (c₁, []) := by
  by_cases hg : (cfg.schema.isNone && !cfg.isApiCreator) = true
  · exact ⟨none, [], schemaModel_guard_skip _ _ _ _ _ _ hg,
      schemaModel_guard_skip _ _ _ _ _ _ hg⟩
  · have hg' : (cfg.schema.isNone && !cfg.isApiCreator) = false := by
      cases hv : (cfg.schema.isNone && !cfg.isApiCreator)
      · rfl
      · exact absurd hv hg
    refine ⟨some (cks (resolvedSchemaText fs cfg)),
      [SchemaCall.startSchemaCreation (resolvedSchemaText fs cfg),
        SchemaCall.getStatus "SUCCESS"], ?_, schemaModel_prior_eq _ _ _ _ _ hg'⟩
    unfold createSchemaModel
    simp only [hg', Bool.false_eq_true, if_false]
    rw [if_neg (by simp)]
    have hpoll : pollCalls (fun _ => "SUCCESS") 1 0 =
        some [SchemaCall.getStatus "SUCCESS"] := by
      unfold pollCalls
      rw [if_pos (by decide)]
    rw [hpoll]

/-- Helper: the modes of a first-run function plan are all `create`. -/
theorem createdPlannedFrom_modes (rs : List ResolvedFn) :
    ∀ n0, (createdPlannedFrom n0 rs).map (fun p => p.mode) =
      List.replicate rs.length Mode.create := by
  induction rs with
  | nil => intro n0; rfl
  | cons r rest ih =>
    intro n0
    simp [createdPlannedFrom, List.replicate_succ, ih (n0 + 1)]

/-- Claim C2, counterexample.  Desired configuration: a single API key named `k` with
`expires` given in epoch milliseconds (`1700000000000`).  The first run from a fresh
environment creates the key with the normalized epoch-seconds expiry; the second run —
identical desired input, remote state exactly as the first run left it — compares the
raw declared `expires` against the stored normalized value, finds them different, and
classifies the key `update`, not `ignore`. -/
theorem c2_counterexample :
    (match defaultRun {} (fun _ => none) (fun s => s) c2Config {} {}
        (fun _ => "SUCCESS") 1 with
     | .ok o1 =>
       (match defaultRun {} (fun _ => none) (fun s => s) c2Config o1.state o1.remote
           (fun _ => "SUCCESS") 1 with
        | .ok o2 => o2.keyModes
        | .error _ => [])
     | .error _ => []) = [Mode.update] ∧
    [Mode.update] ≠ [Mode.ignore] := by
  exact ⟨by decide, by decide⟩

/-- Claim C2 (amended).  Starting from a fresh environment (empty remote state, empty
prior state) and a healthy provider (schema creation reports SUCCESS on its first
poll), suppose the desired configuration satisfies the first run's own preconditions:
distinct `(name, dataSource)` keys for functions, distinct `(type, field)` keys for
resolvers, distinct data-source names, every API key named with distinct names, the
service-role synthesis does not throw, and — the restriction the counterexample
forces — every declared API key `expires` is an integer number of epoch seconds below
1e12.  Then the first run succeeds, and a second run with the identical desired input
and no external drift classifies every item `ignore` in every reconciler (data
sources, resolvers, functions, API keys), submits no schema creation, and persists a
state equal to the first run's. -/
theorem c2_second_run_idempotent (env : RunEnv) (fs : String → Option String)
    (cks : String → String) (inputs : RunConfig)
    (hfn : (inputs.functions.map fnKey).Nodup)
    (hres : (inputs.mappingTemplates.map (fun r => (r.type, r.field))).Nodup)
    (hds : (inputs.dataSources.map (fun d => d.name)).Nodup)
    (hnamed : ∀ k ∈ formatInputApiKeys inputs.apiKeys, k.name ≠ none)
    (hknd : ((formatInputApiKeys inputs.apiKeys).map (fun k => k.name)).Nodup)
    (hexp : ∀ k ∈ formatInputApiKeys inputs.apiKeys, ∀ e : Int,
      k.expires = some e → e < 1000000000000)
    (hrole : ∃ s, createServiceRoleStatements env.accountId inputs.region
      inputs.dataSources = .ok s) :
    ∃ o1 o2,
      defaultRun env fs cks inputs {} {} (fun _ => "SUCCESS") 1 = .ok o1 ∧
      defaultRun env fs cks inputs o1.state o1.remote (fun _ => "SUCCESS") 1 = .ok o2 ∧
      o2.dsModes = List.replicate inputs.dataSources.length Mode.ignore ∧
      o2.resolverModes = List.replicate inputs.mappingTemplates.length Mode.ignore ∧
      o2.fnModes = List.replicate inputs.functions.length Mode.ignore ∧
      o2.keyModes = List.replicate (formatInputApiKeys inputs.apiKeys).length
        Mode.ignore ∧
      o2.schemaSubmitted = false ∧
      o2.state = o1.state := by
  obtain ⟨s, hsrole⟩ := hrole
  obtain ⟨c₁, calls₁, hsch1, hsch2⟩ := schema_twice fs cks
    { schema := inputs.schema, isApiCreator := inputs.isApiCreator,
      src := inputs.src, apiId := env.apiId }
  have hstamp := stampDataSources_none inputs.dataSources
  have hds1 := ds_run1 inputs.dataSources hds
  have hres1 := res_run1 fs inputs.src inputs.mappingTemplates hres
  have hfns1 := fns_run1 fs inputs.src inputs.functions hfn 0
  have hkeys1 := keys_run1 inputs.apiKeys inputs.functions.length hnamed
  have hrmds1 : ∀ (X : List DSStateEntry) (Y : List RemoteDS),
      removeObsoleteDataSourcesModel none X Y = Y :=
    fun X Y => removeObsoleteDataSourcesModel_of_nil none X Y rfl
  have hrmres1 : ∀ (X : List ResStateEntry) (Y : List ResolvedResolver),
      removeObsoleteResolversModel none X Y = Y :=
    fun X Y => removeObsoleteResolversModel_of_nil none X Y rfl
  have hrmfns1 : ∀ (X : List FnKeyProj) (Y : List RemoteFn),
      removeObsoleteFunctionsRun none X Y = Y :=
    fun X Y => removeObsoleteFunctionsRun_of_nil none X Y rfl
  have hrmkeys1 : ∀ (X : List (Option String)) (Y : List RemoteKey),
      removeObsoleteApiKeysModel none X Y = (Y, []) :=
    fun X Y => removeObsoleteApiKeysModel_of_nil none X Y rfl
  have hrun1 : defaultRun env fs cks inputs {} {} (fun _ => "SUCCESS") 1 =
      .ok
        { state :=
            { apiId := some env.apiId, arn := some env.arn, uris := some env.uris,
              schemaChecksum := c₁,
              apiKeys := some (keyStatesFrom inputs.functions.length
                (formatInputApiKeys inputs.apiKeys)),
              dataSources := some (inputs.dataSources.map dsProj),
              mappingTemplates := some
                ((inputs.mappingTemplates.map (resolveResolver fs inputs.src)).map
                  resProj),
              functions := some
                ((createdPlannedFrom 0 (inputs.functions.map (resolveFn fs inputs.src))).map
                  plannedFnState) },
          remote :=
            { dataSources := inputs.dataSources.map remoteOfDS,
              resolvers := inputs.mappingTemplates.map (resolveResolver fs inputs.src),
              functions :=
                createdFnsFrom 0 (inputs.functions.map (resolveFn fs inputs.src)),
              apiKeys := createdKeysFrom inputs.functions.length
                (formatInputApiKeys inputs.apiKeys),
              schemaSaved := schemaSavedAfter calls₁ none,
              nextId := inputs.functions.length +
                (formatInputApiKeys inputs.apiKeys).length },
          dsModes := List.replicate inputs.dataSources.length Mode.create,
          resolverModes := List.replicate inputs.mappingTemplates.length Mode.create,
          fnModes := List.replicate inputs.functions.length Mode.create,
          keyModes := List.replicate (formatInputApiKeys inputs.apiKeys).length
            Mode.create,
          schemaSubmitted := calls₁.any isStartCall } := by
    unfold defaultRun
    simp only [hsrole, hstamp, hds1, hsch1, hres1, hfns1, hkeys1, Nat.zero_add,
      hrmds1, hrmres1, hrmfns1, hrmkeys1, createdPlannedFrom_modes, List.length_map]
  have hds2 := ds_run2 inputs.dataSources hds
  have hres2 := res_run2 fs inputs.src inputs.mappingTemplates hres
  have hfns2 := fns_run2 fs inputs.src inputs.functions hfn 0
    (inputs.functions.length + (formatInputApiKeys inputs.apiKeys).length)
  have hkeys2 := keys_run2 inputs.apiKeys inputs.functions.length
    (inputs.functions.length + (formatInputApiKeys inputs.apiKeys).length)
    hnamed hknd hexp
  have hrm2ds : ∀ Y : List RemoteDS,
      removeObsoleteDataSourcesModel (some (inputs.dataSources.map dsProj))
        (inputs.dataSources.map dsProj) Y = Y :=
    fun Y => removeObsoleteDataSourcesModel_of_nil _ _ Y
      (jsDifference_subset_nil _ _ (fun x hx => hx))
  have hrm2res : ∀ Y : List ResolvedResolver,
      removeObsoleteResolversModel
        (some ((inputs.mappingTemplates.map (resolveResolver fs inputs.src)).map resProj))
        ((inputs.mappingTemplates.map (resolveResolver fs inputs.src)).map resProj) Y =
        Y :=
    fun Y => removeObsoleteResolversModel_of_nil _ _ Y
      (jsDifference_subset_nil _ _ (fun x hx => hx))
  have hrm2fns : ∀ Y : List RemoteFn,
      removeObsoleteFunctionsRun
        (some ((createdPlannedFrom 0 (inputs.functions.map (resolveFn fs inputs.src))).map
          plannedFnState))
        ((ignoredPlannedFrom 0 (inputs.functions.map (resolveFn fs inputs.src))).map
          plannedFnProj) Y = Y := by
    intro Y
    apply removeObsoleteFunctionsRun_of_nil
    rw [show defaultToAnArray (some ((createdPlannedFrom 0
        (inputs.functions.map (resolveFn fs inputs.src))).map plannedFnState)) =
      (createdPlannedFrom 0 (inputs.functions.map (resolveFn fs inputs.src))).map
        plannedFnState from rfl]
    rw [created_state_fnProj, ignored_fnProj]
    exact jsDifference_subset_nil _ _ (fun x hx => hx)
  have hrm2keys : ∀ Y : List RemoteKey,
      removeObsoleteApiKeysModel
        (some (keyStatesFrom inputs.functions.length (formatInputApiKeys inputs.apiKeys)))
        ((keyStatesFrom inputs.functions.length
          (formatInputApiKeys inputs.apiKeys)).map (fun k => k.name)) Y = (Y, []) :=
    fun Y => removeObsoleteApiKeysModel_of_nil _ _ Y
      (jsDifference_subset_nil _ _ (fun x hx => hx))
  have hrun2 : defaultRun env fs cks inputs
      { apiId := some env.apiId, arn := some env.arn, uris := some env.uris,
        schemaChecksum := c₁,
        apiKeys := some (keyStatesFrom inputs.functions.length
          (formatInputApiKeys inputs.apiKeys)),
        dataSources := some (inputs.dataSources.map dsProj),
        mappingTemplates := some
          ((inputs.mappingTemplates.map (resolveResolver fs inputs.src)).map resProj),
        functions := some
          ((createdPlannedFrom 0 (inputs.functions.map (resolveFn fs inputs.src))).map
            plannedFnState) }
      { dataSources := inputs.dataSources.map remoteOfDS,
        resolvers := inputs.mappingTemplates.map (resolveResolver fs inputs.src),
        functions := createdFnsFrom 0 (inputs.functions.map (resolveFn fs inputs.src)),
        apiKeys := createdKeysFrom inputs.functions.length
          (formatInputApiKeys inputs.apiKeys),
        schemaSaved := schemaSavedAfter calls₁ none,
        nextId := inputs.functions.length +
          (formatInputApiKeys inputs.apiKeys).length }
      (fun _ => "SUCCESS") 1 =
      .ok
        { state :=
            { apiId := some env.apiId, arn := some env.arn, uris := some env.uris,
              schemaChecksum := c₁,
              apiKeys := some (keyStatesFrom inputs.functions.length
                (formatInputApiKeys inputs.apiKeys)),
              dataSources := some (inputs.dataSources.map dsProj),
              mappingTemplates := some
                ((inputs.mappingTemplates.map (resolveResolver fs inputs.src)).map
                  resProj),
              functions := some
                ((ignoredPlannedFrom 0
                  (inputs.functions.map (resolveFn fs inputs.src))).map
                  plannedFnState) },
          remote :=
            { dataSources := inputs.dataSources.map remoteOfDS,
              resolvers := inputs.mappingTemplates.map (resolveResolver fs inputs.src),
              functions :=
                createdFnsFrom 0 (inputs.functions.map (resolveFn fs inputs.src)),
              apiKeys := createdKeysFrom inputs.functions.length
                (formatInputApiKeys inputs.apiKeys),
              schemaSaved := schemaSavedAfter [] (schemaSavedAfter calls₁ none),
              nextId := inputs.functions.length +
                (formatInputApiKeys inputs.apiKeys).length },
          dsModes := List.replicate inputs.dataSources.length Mode.ignore,
          resolverModes := List.replicate inputs.mappingTemplates.length Mode.ignore,
          fnModes := List.replicate inputs.functions.length Mode.ignore,
          keyModes := List.replicate (formatInputApiKeys inputs.apiKeys).length
            Mode.ignore,
          schemaSubmitted := List.any [] isStartCall } := by
    unfold defaultRun
    simp only [hsrole, hstamp, hds2, hsch2, hres2, hfns2, hkeys2,
      hrm2ds, hrm2res, hrm2fns, hrm2keys, ignoredPlannedFrom_modes, List.length_map]
  refine ⟨_, _, hrun1, hrun2, rfl, rfl, rfl, rfl, rfl, ?_⟩
  show CompState.mk _ _ _ _ _ _ _ _ = CompState.mk _ _ _ _ _ _ _ _
  rw [← created_ignored_state_eq]

/-- Witness for the amended claim C2 at a concrete desired configuration with one
item of each kind. -/
theorem c2_second_run_idempotent_witness :
    ∃ o1 o2,
      defaultRun {} (fun _ => none) (fun s => s) c2WitnessConfig {} {}
        (fun _ => "SUCCESS") 1 = .ok o1 ∧
      defaultRun {} (fun _ => none) (fun s => s) c2WitnessConfig o1.state o1.remote
        (fun _ => "SUCCESS") 1 = .ok o2 ∧
      o2.dsModes = List.replicate c2WitnessConfig.dataSources.length Mode.ignore ∧
      o2.resolverModes =
        List.replicate c2WitnessConfig.mappingTemplates.length Mode.ignore ∧
      o2.fnModes = List.replicate c2WitnessConfig.functions.length Mode.ignore ∧
      o2.keyModes = List.replicate (formatInputApiKeys c2WitnessConfig.apiKeys).length
        Mode.ignore ∧
      o2.schemaSubmitted = false ∧
      o2.state = o1.state :=
  c2_second_run_idempotent {} (fun _ => none) (fun s => s) c2WitnessConfig
    (by simp [c2WitnessConfig, fnKey]) (by simp [c2WitnessConfig])
    (by simp [c2WitnessConfig])
    (by
      intro k hk
      simp [c2WitnessConfig, formatInputApiKeys, defaultToAnArray] at hk
      subst hk
      simp)
    (by simp [c2WitnessConfig, formatInputApiKeys, defaultToAnArray])
    (by
      intro k hk e he
      simp [c2WitnessConfig, formatInputApiKeys, defaultToAnArray] at hk
      subst hk
      simp at he
      omega)
    ⟨[], rfl⟩

end AppSyncSpec
